import Mathlib

/-!
# MITK: Polhemus tracker interface, slice diff operation, base renderer

A shallow embedding of `Modules/IGT/TrackingDevices/mitkPolhemusInterface.cpp`,
followed by `Modules/Segmentation/Algorithms/mitkDiffSliceOperation.cpp` and the
inline functions of `Core/Rendering/mitkBaseRenderer.h`.

* Bytes and the 32-bit cursor (`DWORD`) are natural numbers, reduced `% 256`
  and `% 2 ^ 32` where the C++ type does so.
* `float` and `double` values are exact rationals; the conversions between the
  two are the identity.  The reinterpretation of four bytes as a `float` and
  the constant `M_PI` are parameters (`FloatModel`).  The rounding of `float`
  and `double` arithmetic, infinities and NaN are not modelled: the claims
  settled here are about control flow, counts, offsets, faults and the order
  of commands, and a claim whose truth depends on how that arithmetic rounds
  is not settled in this embedding.
* A `vnl_quaternion<double>` built by the Euler-angle constructor is
  represented by the three arguments of that constructor.
* The vendor SDK object `CPDIdev` (header `PDI.h`) is a parameter: a record of
  transition functions over an arbitrary device state.
* Behaviour that C++ leaves outside the function's result (an exception, a
  read outside an object, a loop that does not reach its exit) is a `Fault`.
-/

namespace mitk

/-- What a call does instead of returning a value. -/
inductive Fault where
  /-- The exception `std::out_of_range`, thrown by `std::vector::at`. -/
  | out_of_range
  /-- A read outside an object: `operator[]` past the end, a null pointer. -/
  | undefined_behaviour
  /-- The loop has not reached its exit after the passes given to it. -/
  | non_termination
  deriving DecidableEq, Repr

/-- The type `mitk::Vector3D`. -/
structure Vector3D where
  x : ℚ
  y : ℚ
  z : ℚ
  deriving DecidableEq

/-- The type `mitk::Point3D`. -/
structure Point3D where
  x : ℚ
  y : ℚ
  z : ℚ
  deriving DecidableEq

/-- The value `vnl_quaternion<double>(theta_X, theta_Y, theta_Z)`: the quaternion
built from three Euler angles, represented by the constructor arguments. -/
structure vnl_quaternion where
  theta_X : ℚ
  theta_Y : ℚ
  theta_Z : ℚ
  deriving DecidableEq

/-- The struct `mitk::PolhemusInterface::trackingData`. -/
structure trackingData where
  id : Int
  pos : Point3D
  rot : vnl_quaternion
  deriving DecidableEq

/-- What the platform fixes about floating point: how four consecutive bytes
(in memory order) are read as a `float`, and the value of the constant `M_PI`. -/
structure FloatModel where
  floatOfBytes : Nat → Nat → Nat → Nat → ℚ
  M_PI : ℚ

/-- Number of values of a `DWORD`. -/
def DWORD_RANGE : Nat := 2 ^ 32

/-- The read `pBuf[off]` of a `BYTE`; `pBuf` lists the bytes of the object the
pointer points into, a read past its end is undefined. -/
def readBYTE (pBuf : List Nat) (off : Nat) : Except Fault Nat :=
  match pBuf[off]? with
  | some b => .ok (b % 256)
  | none => .error .undefined_behaviour

/-- The read `pPno[k]` of a `float` whose first byte is at offset `off`. -/
def readFLOAT (fm : FloatModel) (pBuf : List Nat) (off : Nat) : Except Fault ℚ :=
  match readBYTE pBuf off, readBYTE pBuf (off + 1), readBYTE pBuf (off + 2),
      readBYTE pBuf (off + 3) with
  | .ok b0, .ok b1, .ok b2, .ok b3 => .ok (fm.floatOfBytes b0 b1 b2 b3)
  | _, _, _, _ => .error .undefined_behaviour

/-- One pass through the body of the `while` loop of `ParsePolhemusRawData`,
entered with cursor `i`: the entry it appends and the cursor it leaves.  The
pointer `pFC` to the frame counter is formed but never dereferenced. -/
def parseStep (fm : FloatModel) (pBuf : List Nat) (i : Nat) :
    Except Fault (trackingData × Nat) := do
  let ucSensor ← readBYTE pBuf ((i + 2) % DWORD_RANGE)
  let shSize ← readBYTE pBuf ((i + 6) % DWORD_RANGE)
  -- skip rest of header
  let i := (i + 8) % DWORD_RANGE
  let pPno := (i + 4) % DWORD_RANGE
  let pPno0 ← readFLOAT fm pBuf pPno
  let pPno1 ← readFLOAT fm pBuf (pPno + 4)
  let pPno2 ← readFLOAT fm pBuf (pPno + 8)
  let pPno3 ← readFLOAT fm pBuf (pPno + 12)
  let pPno4 ← readFLOAT fm pBuf (pPno + 16)
  let pPno5 ← readFLOAT fm pBuf (pPno + 20)
  let azimuthAngle := pPno3 / 180 * fm.M_PI
  let elevationAngle := pPno4 / 180 * fm.M_PI
  let rollAngle := pPno5 / 180 * fm.M_PI
  let currentTrackingData : trackingData :=
    { id := (ucSensor : Int)
      pos := ⟨pPno0 * 10, pPno1 * 10, pPno2 * 10⟩
      rot := ⟨rollAngle, elevationAngle, azimuthAngle⟩ }
  pure (currentTrackingData, (i + shSize) % DWORD_RANGE)

/-- The `while (i < dwSize)` loop of `ParsePolhemusRawData`, run for at most
`fuel` passes from cursor `i` with `returnValue` collected so far. -/
def parseLoop (fm : FloatModel) (pBuf : List Nat) (dwSize : Nat) :
    Nat → Nat → List trackingData → Except Fault (List trackingData)
  | 0, i, returnValue =>
    if i < dwSize then .error .non_termination else .ok returnValue
  | fuel + 1, i, returnValue =>
    if i < dwSize then
      match parseStep fm pBuf i with
      | .ok (currentTrackingData, i) =>
        parseLoop fm pBuf dwSize fuel i (returnValue ++ [currentTrackingData])
      | .error e => .error e
    else .ok returnValue

/-- The function `mitk::PolhemusInterface::ParsePolhemusRawData`.  The cursor
is below `dwSize` at the start of every pass, so a run of more than `dwSize`
passes has seen a cursor value twice: the 32-bit cursor has wrapped around and
the loop no longer reaches its exit (it goes on until `push_back` fails).
`dwSize` passes are all a run that reaches the exit can make. -/
def ParsePolhemusRawData (fm : FloatModel) (pBuf : List Nat) (dwSize : Nat) :
    Except Fault (List trackingData) :=
  parseLoop fm pBuf dwSize dwSize 0 []

/-- A well-formed record: an 8-byte header whose byte at offset 6 holds the
payload length `L`, `28 ≤ L ≤ 255`, followed by exactly `L` payload bytes. -/
def WellFormedRecord (r : List Nat) : Prop :=
  28 ≤ r.getD 6 0 ∧ r.getD 6 0 ≤ 255 ∧ r.length = 8 + r.getD 6 0

instance (r : List Nat) : Decidable (WellFormedRecord r) := by
  unfold WellFormedRecord; infer_instance

/-- The `float` of a record whose first byte is at offset `off` of the record. -/
def recordFloat (fm : FloatModel) (r : List Nat) (off : Nat) : ℚ :=
  fm.floatOfBytes (r.getD off 0 % 256) (r.getD (off + 1) 0 % 256)
    (r.getD (off + 2) 0 % 256) (r.getD (off + 3) 0 % 256)

/-- The decoding of one record as the specification words it: the id is the byte
at header offset 2, the position is 10 times the three floats after the 4-byte
frame counter, the rotation is the quaternion of (roll, elevation, azimuth),
the 6th, 5th and 4th float, each divided by 180 and multiplied by pi. -/
def decodeRecord (fm : FloatModel) (r : List Nat) : trackingData :=
  { id := ((r.getD 2 0 % 256 : Nat) : Int)
    pos := ⟨10 * recordFloat fm r 12, 10 * recordFloat fm r 16, 10 * recordFloat fm r 20⟩
    rot := ⟨recordFloat fm r 32 / 180 * fm.M_PI, recordFloat fm r 28 / 180 * fm.M_PI,
            recordFloat fm r 24 / 180 * fm.M_PI⟩ }

/-- What a call `LastPnoPtr(pBuf, dwSize)` or `ReadSinglePnoBuf(pBuf, dwSize)`
leaves behind: the returned `BOOL` and the values the two locals `pBuf` and
`dwSize` hold after the call (whether the SDK wrote them or not). -/
structure PnoResult where
  ok : Bool
  pBuf : List Nat
  dwSize : Nat
  deriving DecidableEq

/-- The commands the interface sends to the tracker through `m_pdiDev`.  The
accessors `CnxReady` and `GetLastResultStr` ask the SDK object for its status
and are not commands. -/
inductive Cmd where
  | LastPnoPtr
  | ReadSinglePnoBuf
  | StopContPno
  | StartContPno (hwnd : Int)
  | GetSHemisphere (tool : Int)
  | SetSHemisphere (tool : Int) (v : Vector3D)
  | SetSHemiTrack (tool : Int)
  | GetSHemiTrack (tool : Int)
  deriving DecidableEq

/-- The part of the class `CPDIdev` of the vendor SDK that the hemisphere and
frame functions use, over a device state `σ`.  A `float` triple `PDI3vec` is a
`Vector3D`. -/
structure CPDIdev (σ : Type) where
  CnxReady : σ → Bool
  LastPnoPtr : σ → PnoResult × σ
  ReadSinglePnoBuf : σ → PnoResult × σ
  StopContPno : σ → σ
  StartContPno : Int → σ → σ
  GetSHemisphere : Int → σ → Vector3D × σ
  SetSHemisphere : Int → Vector3D → σ → σ
  SetSHemiTrack : Int → σ → σ
  GetSHemiTrack : Int → σ → Bool × σ

/-- The members of `mitk::PolhemusInterface`; `issued` lists the commands sent
to the tracker so far, oldest first.  `m_numberOfTools` is an `unsigned int`
compared with an `int` counter: tool counts stay far below `2 ^ 31`. -/
structure PolhemusInterface (σ : Type) where
  m_pdiDev : σ
  issued : List Cmd
  m_continousTracking : Bool
  m_numberOfTools : Nat
  m_ToolPorts : List Int
  m_Hemispheres : List Vector3D

/-- Record that command `c` was sent and left the device in state `d`. -/
def PolhemusInterface.issue {σ : Type} (st : PolhemusInterface σ) (c : Cmd) (d : σ) :
    PolhemusInterface σ :=
  { st with m_pdiDev := d, issued := st.issued ++ [c] }

/-- The loop `for (int i = 0; i < n; ++i) body`, entered at counter `i` with
`k = n - i` passes left. -/
def forLoop {S : Type} (body : Nat → S → Except Fault S) : Nat → Nat → S → Except Fault S
  | 0, _, s => .ok s
  | k + 1, i, s =>
    match body i s with
    | .ok s => forLoop body k (i + 1) s
    | .error e => .error e

/-- The product `-1. * v`. -/
def Vector3D.negated (v : Vector3D) : Vector3D := ⟨-1 * v.x, -1 * v.y, -1 * v.z⟩

/-- The square of `GetNorm()`; the norm is its square root and is 0 exactly
when the square is. -/
def Vector3D.GetSquaredNorm (v : Vector3D) : ℚ := v.x * v.x + v.y * v.y + v.z * v.z

/-- The member `Point3D::GetVectorFromOrigin`. -/
def Point3D.GetVectorFromOrigin (p : Point3D) : Vector3D := ⟨p.x, p.y, p.z⟩

/-- The scalar product `a * b` of two vectors. -/
def Vector3D.dot (a b : Vector3D) : ℚ := a.x * b.x + a.y * b.y + a.z * b.z

/-- The vector `(1|0|0)` of `mitk::FillVector3D(temp, 1, 0, 0)`. -/
def defaultHemisphere : Vector3D := ⟨1, 0, 0⟩

section Interface

variable {σ : Type} (fm : FloatModel) (dev : CPDIdev σ)

/-- The function `mitk::PolhemusInterface::GetLastFrame`: a failed read is
logged and the locals are parsed all the same. -/
def GetLastFrame (st : PolhemusInterface σ) :
    Except Fault (List trackingData × PolhemusInterface σ) :=
  let r := dev.LastPnoPtr st.m_pdiDev
  let st := st.issue .LastPnoPtr r.2
  match ParsePolhemusRawData fm r.1.pBuf (r.1.dwSize % DWORD_RANGE) with
  | .ok returnValue => .ok (returnValue, st)
  | .error e => .error e

/-- The function `mitk::PolhemusInterface::GetSingleFrame`. -/
def GetSingleFrame (st : PolhemusInterface σ) :
    Except Fault (List trackingData × PolhemusInterface σ) :=
  if st.m_continousTracking then .ok ([], st)
  else
    let r := dev.ReadSinglePnoBuf st.m_pdiDev
    let st := st.issue .ReadSinglePnoBuf r.2
    if !r.1.ok then .ok ([], st)
    else
      match ParsePolhemusRawData fm r.1.pBuf (r.1.dwSize % DWORD_RANGE) with
      | .ok returnValue => .ok (returnValue, st)
      | .error e => .error e

/-- The function `mitk::PolhemusInterface::SetHemisphere`. -/
def SetHemisphere (_tool : Int) (_hemisphere : Vector3D) (st : PolhemusInterface σ) :
    PolhemusInterface σ :=
  if !dev.CnxReady st.m_pdiDev then st
  else st.issue (.SetSHemisphere _tool _hemisphere)
    (dev.SetSHemisphere _tool _hemisphere st.m_pdiDev)

/-- The function `mitk::PolhemusInterface::GetHemisphere`.  Without a ready
connection it returns `nullptr`, from which no vector can be read. -/
def GetHemisphere (_tool : Int) (st : PolhemusInterface σ) :
    Except Fault (Vector3D × PolhemusInterface σ) :=
  if !dev.CnxReady st.m_pdiDev then .error .undefined_behaviour
  else if st.m_continousTracking then
    let st := { st with m_continousTracking := false }
    let st := st.issue .StopContPno (dev.StopContPno st.m_pdiDev)
    let r := dev.GetSHemisphere _tool st.m_pdiDev
    let st := st.issue (.GetSHemisphere _tool) r.2
    let st := st.issue (.StartContPno 0) (dev.StartContPno 0 st.m_pdiDev)
    let st := { st with m_continousTracking := true }
    .ok (r.1, st)
  else
    let r := dev.GetSHemisphere _tool st.m_pdiDev
    .ok (r.1, st.issue (.GetSHemisphere _tool) r.2)

/-- The frame read `if (m_continousTracking) GetLastFrame() else GetSingleFrame()`. -/
def readFrame (st : PolhemusInterface σ) :
    Except Fault (List trackingData × PolhemusInterface σ) :=
  if st.m_continousTracking then GetLastFrame fm dev st else GetSingleFrame fm dev st

/-- Body of the loop of `SetHemisphereTrackingEnabled(true)`:
`m_Hemispheres.push_back(GetHemisphere(m_ToolPorts[i]))`. -/
def snapshotBody (i : Nat) (st : PolhemusInterface σ) : Except Fault (PolhemusInterface σ) :=
  match st.m_ToolPorts[i]? with
  | none => .error .undefined_behaviour
  | some port =>
    match GetHemisphere dev port st with
    | .ok (h, st) => .ok { st with m_Hemispheres := st.m_Hemispheres ++ [h] }
    | .error e => .error e

/-- Body of the loop of `SetHemisphereTrackingEnabled(false)` for tool `i`. -/
def switchOffBody (_position : List trackingData) (i : Nat) (st : PolhemusInterface σ) :
    Except Fault (PolhemusInterface σ) :=
  match st.m_Hemispheres[i]? with
  | none => .error .out_of_range
  | some h =>
    let h := if h.GetSquaredNorm = 0 then defaultHemisphere else h
    match _position[i]? with
    | none => .error .out_of_range
    | some p =>
      let _scalarProduct := p.pos.GetVectorFromOrigin.dot h
      let h := if _scalarProduct < 0 then h.negated else h
      let st := { st with m_Hemispheres := st.m_Hemispheres.set i h }
      match st.m_ToolPorts[i]? with
      | none => .error .undefined_behaviour
      | some port => .ok (SetHemisphere dev port h st)

/-- The function `mitk::PolhemusInterface::SetHemisphereTrackingEnabled`. -/
def SetHemisphereTrackingEnabled (_HeisphereTrackingEnabeled : Bool)
    (st : PolhemusInterface σ) : Except Fault (PolhemusInterface σ) :=
  if !dev.CnxReady st.m_pdiDev then .ok st
  else if _HeisphereTrackingEnabeled then
    match (if st.m_Hemispheres.isEmpty then
        forLoop (snapshotBody dev) st.m_numberOfTools 0 st else .ok st) with
    | .ok st => .ok (st.issue (.SetSHemiTrack (-1)) (dev.SetSHemiTrack (-1) st.m_pdiDev))
    | .error e => .error e
  else
    match readFrame fm dev st with
    | .error e => .error e
    | .ok (_position, st) =>
      let st := if st.m_Hemispheres.isEmpty then
          { st with m_Hemispheres := List.replicate st.m_numberOfTools defaultHemisphere }
        else st
      match forLoop (switchOffBody dev _position) st.m_numberOfTools 0 st with
      | .ok st => .ok { st with m_Hemispheres := [] }
      | .error e => .error e

/-- Body of the loop of `ToggleHemisphere(-1)`:
`SetHemisphere(m_ToolPorts[i], -1.*GetHemisphere(m_ToolPorts[i]))`. -/
def toggleBody (i : Nat) (st : PolhemusInterface σ) : Except Fault (PolhemusInterface σ) :=
  match st.m_ToolPorts[i]? with
  | none => .error .undefined_behaviour
  | some port =>
    match GetHemisphere dev port st with
    | .ok (h, st) => .ok (SetHemisphere dev port h.negated st)
    | .error e => .error e

/-- The function `mitk::PolhemusInterface::ToggleHemisphere`. -/
def ToggleHemisphere (_tool : Int) (st : PolhemusInterface σ) :
    Except Fault (PolhemusInterface σ) :=
  if !dev.CnxReady st.m_pdiDev then .ok st
  else
    let st := if st.m_continousTracking then
        st.issue .StopContPno (dev.StopContPno st.m_pdiDev) else st
    let r := dev.GetSHemiTrack _tool st.m_pdiDev
    let _hemiTrack := r.1
    let st := st.issue (.GetSHemiTrack _tool) r.2
    let st := if st.m_continousTracking then
        st.issue (.StartContPno 0) (dev.StartContPno 0 st.m_pdiDev) else st
    match (if _hemiTrack then SetHemisphereTrackingEnabled fm dev false st else .ok st) with
    | .error e => .error e
    | .ok st =>
      match (if _tool = -1 then forLoop (toggleBody dev) st.m_numberOfTools 0 st
          else match GetHemisphere dev _tool st with
            | .ok (h, st) => .ok (SetHemisphere dev _tool h.negated st)
            | .error e => .error e) with
      | .error e => .error e
      | .ok st =>
        if _hemiTrack then SetHemisphereTrackingEnabled fm dev true st else .ok st

end Interface

/-- A ready connection: `CnxReady()` answers true whenever it is asked. -/
def AlwaysReady {σ : Type} (dev : CPDIdev σ) : Prop := ∀ s, dev.CnxReady s = true

/-- The vectors `GetHemisphere(port)` for the ports of a list, asked in order. -/
def hemisphereSnapshot {σ : Type} (dev : CPDIdev σ) :
    List Int → PolhemusInterface σ → Except Fault (List Vector3D × PolhemusInterface σ)
  | [], st => .ok ([], st)
  | port :: ports, st =>
    match GetHemisphere dev port st with
    | .error e => .error e
    | .ok (h, st) =>
      match hemisphereSnapshot dev ports st with
      | .error e => .error e
      | .ok (hs, st) => .ok (h :: hs, st)

/-- Whether continuous acquisition is paused after command `c`, given whether it
was before: `StopContPno` pauses it, `StartContPno` resumes it. -/
def Cmd.pauses (paused : Bool) : Cmd → Bool
  | .StopContPno => true
  | .StartContPno _ => false
  | _ => paused

/-- Whether continuous acquisition is paused after the commands of `log`. -/
def pausedAfter (paused : Bool) (log : List Cmd) : Bool := log.foldl Cmd.pauses paused

/-- Every command of `log` that satisfies `p` is issued while the paused state of
continuous acquisition is `want`; `paused` is the state before `log`. -/
def issuedWhile (p : Cmd → Bool) (want : Bool) : Bool → List Cmd → Bool
  | _, [] => true
  | paused, c :: log =>
    (!p c || paused == want) && issuedWhile p want (Cmd.pauses paused c) log

/-- The command mutates a hemisphere vector. -/
def Cmd.isSetSHemisphere : Cmd → Bool
  | .SetSHemisphere _ _ => true
  | _ => false

/-- The command reads device state: `GetSHemiTrack` or `GetSHemisphere`. -/
def Cmd.isStateRead : Cmd → Bool
  | .GetSHemiTrack _ => true
  | .GetSHemisphere _ => true
  | _ => false

/-- A tracker simulated in memory, on which the interface is run at concrete
inputs: both frame reads answer `readOk` and leave `pBuf`, `dwSize` in the
locals; `hemispheres` lists the vectors set so far, newest first. -/
structure BenchTracker where
  readOk : Bool
  pBuf : List Nat
  dwSize : Nat
  hemiTrack : Bool
  hemispheres : List (Int × Vector3D)

/-- The vector the simulated tracker holds for `tool`, `(0|0|0)` if none was set. -/
def BenchTracker.hemisphere (s : BenchTracker) (tool : Int) : Vector3D :=
  match s.hemispheres.lookup tool with
  | some v => v
  | none => ⟨0, 0, 0⟩

/-- The SDK object of the simulated tracker; its connection is ready. -/
def benchDev : CPDIdev BenchTracker where
  CnxReady := fun _ => true
  LastPnoPtr := fun s => (⟨s.readOk, s.pBuf, s.dwSize⟩, s)
  ReadSinglePnoBuf := fun s => (⟨s.readOk, s.pBuf, s.dwSize⟩, s)
  StopContPno := fun s => s
  StartContPno := fun _ s => s
  GetSHemisphere := fun t s => (s.hemisphere t, s)
  SetSHemisphere := fun t v s => { s with hemispheres := (t, v) :: s.hemispheres }
  SetSHemiTrack := fun _ s => { s with hemiTrack := true }
  GetSHemiTrack := fun _ s => (s.hemiTrack, s)

/-- A float model for concrete runs: the four bytes are read as a little-endian
integer in two's complement, and `M_PI` is 355/113. -/
def benchFloat : FloatModel where
  floatOfBytes := fun b0 b1 b2 b3 =>
    if b3 < 128 then ((b0 + 256 * b1 + 65536 * b2 + 16777216 * b3 : Nat) : ℚ)
    else ((b0 + 256 * b1 + 65536 * b2 + 16777216 * b3 : Nat) : ℚ) - 4294967296
  M_PI := 355 / 113

/-- The four bytes of the 32-bit two's complement integer `v`, lowest first. -/
def le32 (v : Int) : List Nat :=
  [(v % 256).toNat, (v / 256 % 256).toNat, (v / 65536 % 256).toNat,
   (v / 16777216 % 256).toNat]

/-- A record of sensor `id` with payload length 28, frame counter 7, position
floats `x`, `y`, `z` and angle floats 90, 45, 30. -/
def benchRecord (id : Nat) (x y z : Int) : List Nat :=
  [0, 0, id, 0, 0, 0, 28, 0, 7, 0, 0, 0] ++ le32 x ++ le32 y ++ le32 z ++
    [90, 0, 0, 0, 45, 0, 0, 0, 30, 0, 0, 0]

/-- A frame of two records: sensor 1 at (3, 0, 0) cm and sensor 2 at (-1, 0, 0) cm. -/
def benchFrame : List Nat := benchRecord 1 3 0 0 ++ benchRecord 2 (-1) 0 0

/-- The entries the frame `benchFrame` decodes to. -/
def benchPositions : List trackingData :=
  [decodeRecord benchFloat (benchRecord 1 3 0 0), decodeRecord benchFloat (benchRecord 2 (-1) 0 0)]

/-- A simulated tracker that delivers `benchFrame` and holds the vector (1|0|0)
for ports 1 and 2. -/
def benchTracker : BenchTracker :=
  ⟨true, benchFrame, 72, false, [(1, ⟨1, 0, 0⟩), (2, ⟨1, 0, 0⟩)]⟩

/-- An interface with two tools on ports 1 and 2, connected to `benchTracker`. -/
def benchState (continuous : Bool) (cache : List Vector3D) : PolhemusInterface BenchTracker :=
  ⟨benchTracker, [], continuous, 2, [1, 2], cache⟩

/-- The discipline of a run of commands that starts with continuous acquisition
running: every read of device state is issued while acquisition is paused, every
`SetSHemisphere` while it is running, and acquisition is running at the end. -/
def PausesOnlyForReads (seg : List Cmd) : Prop :=
  issuedWhile Cmd.isStateRead true false seg = true ∧
  issuedWhile Cmd.isSetSHemisphere false false seg = true ∧
  pausedAfter false seg = false

/-- State `st'` comes from `st` by sending commands that pause only for reads,
with the continuous-tracking flag as it was. -/
def Extends {σ : Type} (st st' : PolhemusInterface σ) : Prop :=
  st'.m_continousTracking = st.m_continousTracking ∧
  ∃ seg, st'.issued = st.issued ++ seg ∧ PausesOnlyForReads seg

/-- The offsets of the bytes one pass of the loop of `ParsePolhemusRawData` reads
when entered with cursor `i`: `pBuf[i + 2]`, `pBuf[i + 6]` and, after `i += 8`,
the 24 bytes of `pPno[0] .. pPno[5]` that start at `&pBuf[i + 4]`. -/
def parseStepReads (i : Nat) : List Nat :=
  [(i + 2) % DWORD_RANGE, (i + 6) % DWORD_RANGE] ++
    List.range' (((i + 8) % DWORD_RANGE + 4) % DWORD_RANGE) 24

/-- The bytes a pass entered at cursor `i` reads all lie inside the object `pBuf`. -/
def readsInside (pBuf : List Nat) (i : Nat) : Prop :=
  ∀ off ∈ parseStepReads i, off < pBuf.length

/-- The offsets of the four bytes of the frame counter `pFC` points to after
`i += 8`; the loop forms the pointer and never reads through it. -/
def frameCounterOffsets (i : Nat) : List Nat :=
  List.range' ((i + 8) % DWORD_RANGE) 4

/-- The cursor values with which the loop of `ParsePolhemusRawData` enters its
body, in order, in a run of at most `fuel` passes from cursor `i`. -/
def parseCursors (fm : FloatModel) (pBuf : List Nat) (dwSize : Nat) : Nat → Nat → List Nat
  | 0, _ => []
  | fuel + 1, i =>
    if i < dwSize then
      i :: (match parseStep fm pBuf i with
        | .ok (_, i) => parseCursors fm pBuf dwSize fuel i
        | .error _ => [])
    else []

/-- A buffer of `n` zero bytes. -/
def zeroBuffer (n : Nat) : List Nat := List.replicate n 0

/-! ## The slice diff operation

A shallow embedding of `Modules/Segmentation/Algorithms/mitkDiffSliceOperation.cpp`.
A pointer is an `Option`; a smart pointer that is `NULL` is `none`. -/

/-- The members of `mitk::DiffSliceOperation`, over the types of images, slice
data and geometries. -/
structure DiffSliceOperation (Image Slice Geometry : Type) where
  m_Image : Option Image
  m_Slice : Option Slice
  m_WorldGeometry : Option Geometry
  m_SliceGeometry : Option Geometry
  m_TimeStep : Nat
  m_ImageIsValid : Bool
  /-- The tag of the delete observer, set only when there is an image. -/
  m_DeleteObserverTag : Option Nat

namespace DiffSliceOperation

variable {Image Slice Geometry : Type}

/-- The constructor `DiffSliceOperation()`. -/
def createEmpty : DiffSliceOperation Image Slice Geometry :=
  { m_Image := none, m_Slice := none, m_WorldGeometry := none, m_SliceGeometry := none,
    m_TimeStep := 0, m_ImageIsValid := false, m_DeleteObserverTag := none }

/-- The constructor `DiffSliceOperation(imageVolume, slice, sliceGeometry, timestep,
currentWorldGeometry)`.  `Clone()` and `DeepCopy` give a new object with the
content of their source and cannot be called on or with `NULL`; `tag` is what
`AddObserver` returns. -/
def create (imageVolume : Option Image) (slice : Option Slice)
    (sliceGeometry : Option Geometry) (timestep : Nat)
    (currentWorldGeometry : Option Geometry) (tag : Nat) :
    Except Fault (DiffSliceOperation Image Slice Geometry) :=
  match currentWorldGeometry, sliceGeometry, slice with
  | some world, some sliceGeo, some data =>
    .ok { m_WorldGeometry := some world
          m_SliceGeometry := some sliceGeo
          m_TimeStep := timestep % 2 ^ 32
          m_Slice := some data
          m_Image := imageVolume
          m_DeleteObserverTag := if imageVolume.isSome then some tag else none
          m_ImageIsValid := imageVolume.isSome }
  | _, _, _ => .error .undefined_behaviour

/-- The function `mitk::DiffSliceOperation::GetSlice`. -/
def GetSlice (op : DiffSliceOperation Image Slice Geometry) : Option Slice := op.m_Slice

/-- The function `mitk::DiffSliceOperation::IsValid`. -/
def IsValid (op : DiffSliceOperation Image Slice Geometry) : Bool :=
  op.m_ImageIsValid && op.m_Slice.isSome && op.m_WorldGeometry.isSome

/-- The function `mitk::DiffSliceOperation::OnImageDeleted`, the callback of the
image's delete event. -/
def OnImageDeleted (op : DiffSliceOperation Image Slice Geometry) :
    DiffSliceOperation Image Slice Geometry :=
  { op with m_ImageIsValid := false }

/-- The calls a living operation object receives.  The destructor ends the
object's life and is followed by no call. -/
inductive Call where
  | GetSlice
  | IsValid
  | OnImageDeleted
  deriving DecidableEq

/-- The object after one call. -/
def after (op : DiffSliceOperation Image Slice Geometry) : Call →
    DiffSliceOperation Image Slice Geometry
  | .GetSlice => op
  | .IsValid => op
  | .OnImageDeleted => op.OnImageDeleted

/-- The object after a sequence of calls. -/
def afterAll (op : DiffSliceOperation Image Slice Geometry) (calls : List Call) :
    DiffSliceOperation Image Slice Geometry :=
  calls.foldl after op

end DiffSliceOperation

/-! ## The base renderer

A shallow embedding of the inline functions of `Core/Rendering/mitkBaseRenderer.h`.
The value of an `itk::TimeStamp` is a natural number. -/

/-- Modelled from the spec: the geometries a renderer is given (section 4.1); the
geometry classes are declared outside these sources.  A geometry is a 2D
geometry, a time-sliced geometry holding for every time step its per-slice 2D
geometries, or any other 3D geometry. -/
inductive Geometry3D where
  | geometry2D (plane : Nat)
  | timeSliced (steps : List (List Nat))
  | other (box : Nat)
  deriving DecidableEq

/-- Modelled from the spec: the resolved 2D geometry of a render pass (section
4.1): a given 2D geometry, or the plane synthesized on top of the bounding box
of a 3D geometry. -/
inductive Geometry2D where
  | given (plane : Nat)
  | boundingBoxTop (of : Geometry3D)
  deriving DecidableEq

/-- The members of `mitk::BaseRenderer` that the geometry functions use.
`itkTime` is the global modification counter from which every
`itk::TimeStamp` takes its value. -/
structure BaseRenderer where
  m_WorldGeometry : Option Geometry3D
  m_TimeSlicedWorldGeometry : Option Geometry3D
  m_CurrentWorldGeometry2D : Option Geometry2D
  m_DisplayGeometry : Option Nat
  m_Slice : Nat
  m_TimeStep : Nat
  m_CurrentWorldGeometry2DUpdateTime : Nat
  m_DisplayGeometryUpdateTime : Nat
  m_TimeStepUpdateTime : Nat
  m_EmptyWorldGeometry : Bool
  itkTime : Nat

namespace BaseRenderer

/-- The function `GetCurrentWorldGeometry2DUpdateTime` of the header. -/
def GetCurrentWorldGeometry2DUpdateTime (r : BaseRenderer) : Nat :=
  r.m_CurrentWorldGeometry2DUpdateTime

/-- The function `GetDisplayGeometryUpdateTime` of the header, which returns
`m_CurrentWorldGeometry2DUpdateTime`. -/
def GetDisplayGeometryUpdateTime (r : BaseRenderer) : Nat :=
  r.m_CurrentWorldGeometry2DUpdateTime

/-- The function `GetTimeStepUpdateTime` of the header. -/
def GetTimeStepUpdateTime (r : BaseRenderer) : Nat :=
  r.m_TimeStepUpdateTime

/-- Modelled from the spec: a time stamp is monotonic (section 4.1); `Modified()`
of `itk::TimeStamp`, which is outside these sources, takes the next value of
the global counter. -/
def nextStamp (r : BaseRenderer) : Nat := r.itkTime + 1

/-- Modelled from the spec: the resolution of the current 2D geometry (section
4.1), whose code is in the body of `SetWorldGeometry`, not in these sources.
A 2D geometry is used directly; a time-sliced geometry is indexed by
(slice, time step), falling back to the empty-world flag when the pair is out
of range; for any other geometry the bounding-box-top plane is synthesized. -/
def resolveGeometry (geometry : Geometry3D) (slice timeStep : Nat) :
    Option Geometry2D × Option Geometry3D × Bool :=
  match geometry with
  | .geometry2D plane => (some (.given plane), none, false)
  | .timeSliced steps =>
    match steps[timeStep]? with
    | some slices =>
      match slices[slice]? with
      | some plane => (some (.given plane), some geometry, false)
      | none => (none, some geometry, true)
    | none => (none, some geometry, true)
  | .other _ => (some (.boundingBoxTop geometry), none, false)

/-- Modelled from the spec: `BaseRenderer::SetWorldGeometry`, declared in the
header; its body is not in these sources.  The world geometry is replaced
wholesale, the current 2D geometry is resolved by the three branches of
section 4.1, and the update time stamp `m_CurrentWorldGeometry2DUpdateTime`
(documented in the header as the time stamp of the last call of
`SetWorldGeometry`) is updated. -/
def SetWorldGeometry (geometry : Geometry3D) (r : BaseRenderer) : BaseRenderer :=
  let resolved := resolveGeometry geometry r.m_Slice r.m_TimeStep
  { r with
    m_WorldGeometry := some geometry
    m_CurrentWorldGeometry2D := resolved.1
    m_TimeSlicedWorldGeometry := resolved.2.1
    m_EmptyWorldGeometry := resolved.2.2
    m_CurrentWorldGeometry2DUpdateTime := r.nextStamp
    itkTime := r.nextStamp }

/-- No time stamp of the renderer is ahead of the global counter: every stamp
was taken from the counter, which only grows. -/
def StampsTaken (r : BaseRenderer) : Prop :=
  r.m_CurrentWorldGeometry2DUpdateTime ≤ r.itkTime ∧
  r.m_DisplayGeometryUpdateTime ≤ r.itkTime ∧
  r.m_TimeStepUpdateTime ≤ r.itkTime

end BaseRenderer

/-! ## Connecting -/

/-- The entries `PDI_MODATA_FRAMECOUNT`, `PDI_MODATA_POS`, `PDI_MODATA_ORI` of a
motion data list `CPDImdat`. -/
inductive PDI_MODATA where
  | FRAMECOUNT
  | POS
  | ORI
  deriving DecidableEq

/-- The part of the class `CPDIdev` that `InitializeDevice`, `SetupDevice` and
`Connect` use besides the frame and hemisphere commands, over a device state
`σ`.  `DiscoverCnx` returns the `ePiCommType` as a number, `GetBITErrs` whether
the error record `IsClear()`. -/
structure CPDIsetup (σ : Type) where
  ResetTracker : σ → σ
  ResetSAlignment : Int → σ → σ
  Trace : Bool → Int → σ → σ
  SetSerialIF : σ → σ
  DiscoverCnx : σ → Int × σ
  SetPnoBuffer : Nat → σ → σ
  SetMetric : Bool → σ → σ
  StartPipeExport : σ → σ
  SetSDataList : Int → List PDI_MODATA → σ → σ
  GetBITErrs : σ → Bool × σ
  ClearBITErrs : σ → σ

section Connecting

variable {σ : Type} (fm : FloatModel) (dev : CPDIdev σ) (su : CPDIsetup σ)

/-- The function `mitk::PolhemusInterface::InitializeDevice`.  The commands of
initialisation and setup change the device state; `issued` keeps the frame and
hemisphere commands only. -/
def InitializeDevice (st : PolhemusInterface σ) : Bool × PolhemusInterface σ :=
  let d := su.ResetTracker st.m_pdiDev
  let d := su.ResetSAlignment (-1) d
  let d := su.Trace true 7 d
  (true, { st with m_pdiDev := d, m_continousTracking := false })

/-- The function `mitk::PolhemusInterface::SetupDevice`. -/
def SetupDevice (st : PolhemusInterface σ) : Bool × PolhemusInterface σ :=
  let d := su.SetPnoBuffer 0x1FA400 st.m_pdiDev
  let d := su.SetMetric true d
  let d := su.StartPipeExport d
  let d := su.SetSDataList (-1) [.FRAMECOUNT, .POS, .ORI] d
  let cBE := su.GetBITErrs d
  let d := if !cBE.1 then su.ClearBITErrs cBE.2 else cBE.2
  (true, { st with m_pdiDev := d })

/-- The function `mitk::PolhemusInterface::GetNumberOfTools`; the size of the
frame becomes an `unsigned int`. -/
def GetNumberOfTools (st : PolhemusInterface σ) :
    Except Fault (Nat × PolhemusInterface σ) :=
  match readFrame fm dev st with
  | .ok (frame, st) => .ok (frame.length % 2 ^ 32, st)
  | .error e => .error e

/-- The loop of `Connect` that compares the old tool ports with the ids of the
frame, entered at counter `i` with `k` passes left: on the first difference it
clears `m_ToolPorts` and `m_Hemispheres` and breaks. -/
def comparePorts (_trackingData : List trackingData) :
    Nat → Nat → PolhemusInterface σ → Except Fault (PolhemusInterface σ)
  | 0, _, st => .ok st
  | k + 1, i, st =>
    match st.m_ToolPorts[i]? with
    | none => .error .undefined_behaviour
    | some port =>
      match _trackingData[i]? with
      | none => .error .out_of_range
      | some entry =>
        if port ≠ entry.id then .ok { st with m_ToolPorts := [], m_Hemispheres := [] }
        else comparePorts _trackingData k (i + 1) st

/-- The function `mitk::PolhemusInterface::Connect`. -/
def Connect (st : PolhemusInterface σ) : Except Fault (Bool × PolhemusInterface σ) :=
  let init := InitializeDevice su st
  let cnx : Bool × PolhemusInterface σ :=
    if !init.1 then (false, init.2)
    else if dev.CnxReady init.2.m_pdiDev then (true, init.2)
    else
      let d := su.SetSerialIF init.2.m_pdiDev
      let eType := su.DiscoverCnx d
      let setup := SetupDevice su { init.2 with m_pdiDev := eType.2 }
      if !setup.1 then (false, setup.2)
      else (dev.CnxReady setup.2.m_pdiDev, setup.2)
  let returnValue := cnx.1
  let counted : Except Fault (PolhemusInterface σ) :=
    if returnValue then
      match GetNumberOfTools fm dev cnx.2 with
      | .ok (n, st) => .ok { st with m_numberOfTools := n }
      | .error e => .error e
    else .ok cnx.2
  match counted with
  | .error e => .error e
  | .ok st =>
    -- Get the tracking data to find out which tools are available.
    match readFrame fm dev st with
    | .error e => .error e
    | .ok (_trackingData, st) =>
      -- if we had tool before, check if they are still the same.
      let checked : Except Fault (PolhemusInterface σ) :=
        if st.m_ToolPorts.length = _trackingData.length then
          comparePorts _trackingData _trackingData.length 0 st
        else .ok st
      match checked with
      | .error e => .error e
      | .ok st =>
        -- if we don't have old tool names or if the old ones don't match any more,
        -- assign them again.
        let st := if st.m_ToolPorts.length = 0 then
            { st with m_ToolPorts := _trackingData.map (fun entry => entry.id) }
          else st
        .ok (returnValue, st)

/-- The function `mitk::PolhemusInterface::GetToolPorts`. -/
def GetToolPorts (st : PolhemusInterface σ) : List Int := st.m_ToolPorts

end Connecting

/-- The setup part of the SDK object of the simulated tracker: nothing to set up. -/
def benchSetup : CPDIsetup BenchTracker where
  ResetTracker := fun s => s
  ResetSAlignment := fun _ s => s
  Trace := fun _ _ s => s
  SetSerialIF := fun s => s
  DiscoverCnx := fun s => (0, s)
  SetPnoBuffer := fun _ s => s
  SetMetric := fun _ s => s
  StartPipeExport := fun s => s
  SetSDataList := fun _ _ s => s
  GetBITErrs := fun s => (true, s)
  ClearBITErrs := fun s => s

/-! ## Toggling -/

/-- The vector `v` negated `k` times. -/
def Vector3D.negatedTimes (k : Nat) (v : Vector3D) : Vector3D :=
  if k % 2 = 0 then v else v.negated

/-- State `st'` differs from `st` in the hemisphere vectors of the device only:
the vector of every port `p` was negated `c p` times; the tools, the
continuous-tracking flag and the hemisphere-tracking flags are as before. -/
def ToggledBy {σ : Type} (hemi : σ → Int → Vector3D) (track : σ → Int → Bool)
    (c : Int → Nat) (st st' : PolhemusInterface σ) : Prop :=
  st'.m_ToolPorts = st.m_ToolPorts ∧ st'.m_numberOfTools = st.m_numberOfTools ∧
  st'.m_continousTracking = st.m_continousTracking ∧
  (∀ p, track st'.m_pdiDev p = track st.m_pdiDev p) ∧
  ∀ p, hemi st'.m_pdiDev p = (hemi st.m_pdiDev p).negatedTimes (c p)

/-! ## The parser on well-formed buffers -/

theorem readBYTE_append (pre r rest : List Nat) (off : Nat) (h : off < r.length) :
    readBYTE (pre ++ r ++ rest) (pre.length + off) = .ok (r.getD off 0 % 256) := by
  have h1 : (pre ++ r ++ rest)[pre.length + off]? = some (r.getD off 0) := by
    rw [List.append_assoc, List.getElem?_append_right (by omega)]
    simp only [Nat.add_sub_cancel_left]
    rw [List.getElem?_append_left h, List.getD_eq_getElem?_getD, List.getElem?_eq_getElem h]
    rfl
  unfold readBYTE
  rw [h1]

theorem readFLOAT_append (fm : FloatModel) (pre r rest : List Nat) (off : Nat)
    (h : off + 3 < r.length) :
    readFLOAT fm (pre ++ r ++ rest) (pre.length + off) = .ok (recordFloat fm r off) := by
  have e0 := readBYTE_append pre r rest off (by omega)
  have e1 := readBYTE_append pre r rest (off + 1) (by omega)
  have e2 := readBYTE_append pre r rest (off + 2) (by omega)
  have e3 := readBYTE_append pre r rest (off + 3) (by omega)
  simp only [← Nat.add_assoc] at e1 e2 e3
  simp only [readFLOAT, e0, e1, e2, e3, recordFloat]

theorem parseStep_record (fm : FloatModel) (pre r rest : List Nat)
    (hr : WellFormedRecord r) (hlen : pre.length + r.length < DWORD_RANGE) :
    parseStep fm (pre ++ r ++ rest) pre.length
      = .ok (decodeRecord fm r, pre.length + r.length) := by
  obtain ⟨h28, h255, hl⟩ := hr
  have m2 : (pre.length + 2) % DWORD_RANGE = pre.length + 2 := Nat.mod_eq_of_lt (by omega)
  have m6 : (pre.length + 6) % DWORD_RANGE = pre.length + 6 := Nat.mod_eq_of_lt (by omega)
  have m8 : (pre.length + 8) % DWORD_RANGE = pre.length + 8 := Nat.mod_eq_of_lt (by omega)
  have m12 : (pre.length + 8 + 4) % DWORD_RANGE = pre.length + 12 := Nat.mod_eq_of_lt (by omega)
  have b2 := readBYTE_append pre r rest 2 (by omega)
  have b6 := readBYTE_append pre r rest 6 (by omega)
  have f0 := readFLOAT_append fm pre r rest 12 (by omega)
  have f1 := readFLOAT_append fm pre r rest 16 (by omega)
  have f2 := readFLOAT_append fm pre r rest 20 (by omega)
  have f3 := readFLOAT_append fm pre r rest 24 (by omega)
  have f4 := readFLOAT_append fm pre r rest 28 (by omega)
  have f5 := readFLOAT_append fm pre r rest 32 (by omega)
  have s6 : r.getD 6 0 % 256 = r.getD 6 0 := Nat.mod_eq_of_lt (by omega)
  have mend : (pre.length + 8 + r.getD 6 0) % DWORD_RANGE = pre.length + r.length :=
    by rw [Nat.mod_eq_of_lt (by omega)]; omega
  simp only [parseStep, m2, m6, m8, m12, b2, b6, Nat.add_assoc, Nat.reduceAdd, f0, f1, f2, f3,
    f4, f5, bind, Except.bind, pure, Except.pure, s6]
  rw [Nat.add_assoc] at mend
  simp only [mend, decodeRecord, mul_comm]

theorem parseLoop_records (fm : FloatModel) (recs : List (List Nat)) :
    ∀ (pre : List Nat) (fuel : Nat) (acc : List trackingData),
      (∀ r ∈ recs, WellFormedRecord r) → recs.length ≤ fuel →
      (pre ++ recs.flatten).length < DWORD_RANGE →
      parseLoop fm (pre ++ recs.flatten) (pre ++ recs.flatten).length fuel pre.length acc
        = .ok (acc ++ recs.map (decodeRecord fm)) := by
  induction recs with
  | nil =>
    intro pre fuel acc _ _ _
    cases fuel <;> simp [parseLoop]
  | cons r rs ih =>
    intro pre fuel acc hwf hfuel hlen
    have hr : WellFormedRecord r := hwf r (List.mem_cons_self r rs)
    have hrs : ∀ q ∈ rs, WellFormedRecord q := fun q hq => hwf q (List.mem_cons_of_mem r hq)
    obtain ⟨fuel, rfl⟩ : ∃ k, fuel = k + 1 := ⟨fuel - 1, by simp at hfuel; omega⟩
    have hbuf : pre ++ (r :: rs).flatten = (pre ++ r) ++ rs.flatten := by simp
    have hstep := parseStep_record fm pre r rs.flatten hr (by
      rw [hbuf] at hlen; simp at hlen ⊢; omega)
    have hlt : pre.length < (pre ++ r ++ rs.flatten).length := by
      have := hr.2.2; simp; omega
    rw [hbuf] at hlen ⊢
    rw [parseLoop, if_pos hlt, hstep]
    have := ih (pre ++ r) fuel (acc ++ [decodeRecord fm r]) hrs (by simpa using hfuel) hlen
    simp only [List.length_append] at this ⊢
    rw [this]
    simp only [List.map_cons, List.append_assoc, List.singleton_append]

theorem length_le_flatten (recs : List (List Nat)) (h : ∀ r ∈ recs, WellFormedRecord r) :
    recs.length ≤ recs.flatten.length := by
  induction recs with
  | nil => simp
  | cons r rs ih =>
    have hr := (h r (List.mem_cons_self r rs)).2.2
    have := ih (fun q hq => h q (List.mem_cons_of_mem r hq))
    simp only [List.length_cons, List.flatten_cons, List.length_append]; omega

theorem ParsePolhemusRawData_records (fm : FloatModel) (recs : List (List Nat))
    (hwf : ∀ r ∈ recs, WellFormedRecord r) (hsize : recs.flatten.length < DWORD_RANGE) :
    ParsePolhemusRawData fm recs.flatten recs.flatten.length
      = .ok (recs.map (decodeRecord fm)) := by
  have := parseLoop_records fm recs [] recs.flatten.length [] hwf
    (length_le_flatten recs hwf) (by simpa using hsize)
  simpa [ParsePolhemusRawData] using this

/-! ## Frame reads -/

theorem benchRecord_wellFormed (id : Nat) (x y z : Int) :
    WellFormedRecord (benchRecord id x y z) := by
  simp [WellFormedRecord, benchRecord, le32]

theorem ParsePolhemusRawData_single (fm : FloatModel) (r : List Nat) (hr : WellFormedRecord r) :
    ParsePolhemusRawData fm r r.length = .ok [decodeRecord fm r] := by
  have h := ParsePolhemusRawData_records fm [r] (by simpa using hr)
    (by have := hr.2.2; have := hr.2.1; simp [DWORD_RANGE]; omega)
  simpa using h

/-- C3, the code at the failing input: the read `LastPnoPtr` fails and leaves a
36-byte record in the locals; `GetLastFrame` returns one tracking-data entry,
not the empty list. -/
theorem GetLastFrame_failed_read_not_empty :
    (benchDev.LastPnoPtr ⟨false, benchRecord 1 3 0 0, 36, false, []⟩).1.ok = false ∧
    ∃ st, GetLastFrame benchFloat benchDev
        ⟨⟨false, benchRecord 1 3 0 0, 36, false, []⟩, [], true, 1, [1], []⟩
      = .ok ([decodeRecord benchFloat (benchRecord 1 3 0 0)], st) := by
  have h := ParsePolhemusRawData_single benchFloat (benchRecord 1 3 0 0)
    (benchRecord_wellFormed 1 3 0 0)
  have hl : (benchRecord 1 3 0 0).length = 36 := rfl
  rw [hl] at h
  refine ⟨rfl, ?_⟩
  simp only [GetLastFrame, benchDev, DWORD_RANGE, Nat.reducePow, Nat.reduceMod, h]
  exact ⟨_, rfl⟩

/-- C4: `GetSingleFrame` returns an empty list without sending any command when
continuous tracking is on; it returns an empty list when `ReadSinglePnoBuf`
fails; otherwise it returns what `ParsePolhemusRawData` returns for the buffer
and size the device delivered. -/
theorem GetSingleFrame_cases {σ : Type} (fm : FloatModel) (dev : CPDIdev σ)
    (st : PolhemusInterface σ) :
    (st.m_continousTracking = true → GetSingleFrame fm dev st = .ok ([], st)) ∧
    (st.m_continousTracking = false → (dev.ReadSinglePnoBuf st.m_pdiDev).1.ok = false →
      GetSingleFrame fm dev st
        = .ok ([], st.issue .ReadSinglePnoBuf (dev.ReadSinglePnoBuf st.m_pdiDev).2)) ∧
    (st.m_continousTracking = false → (dev.ReadSinglePnoBuf st.m_pdiDev).1.ok = true →
      (GetSingleFrame fm dev st).map Prod.fst
        = ParsePolhemusRawData fm (dev.ReadSinglePnoBuf st.m_pdiDev).1.pBuf
            ((dev.ReadSinglePnoBuf st.m_pdiDev).1.dwSize % DWORD_RANGE)) := by
  refine ⟨fun h => ?_, fun h hr => ?_, fun h hr => ?_⟩
  · simp [GetSingleFrame, h]
  · simp [GetSingleFrame, h, hr]
  · simp only [GetSingleFrame, h, hr]
    cases ParsePolhemusRawData fm (dev.ReadSinglePnoBuf st.m_pdiDev).1.pBuf
      ((dev.ReadSinglePnoBuf st.m_pdiDev).1.dwSize % DWORD_RANGE) <;> rfl

theorem GetSingleFrame_cases_witness :
    GetSingleFrame benchFloat benchDev (benchState true [])
      = .ok ([], benchState true []) ∧
    GetSingleFrame benchFloat benchDev
        ⟨⟨false, benchFrame, 72, false, []⟩, [], false, 2, [1, 2], []⟩
      = .ok ([], ⟨⟨false, benchFrame, 72, false, []⟩, [Cmd.ReadSinglePnoBuf], false, 2,
          [1, 2], []⟩) ∧
    (GetSingleFrame benchFloat benchDev (benchState false [])).map Prod.fst
      = ParsePolhemusRawData benchFloat benchFrame (72 % DWORD_RANGE) :=
  ⟨(GetSingleFrame_cases benchFloat benchDev (benchState true [])).1 rfl,
   (GetSingleFrame_cases benchFloat benchDev
      ⟨⟨false, benchFrame, 72, false, []⟩, [], false, 2, [1, 2], []⟩).2.1 rfl rfl,
   (GetSingleFrame_cases benchFloat benchDev (benchState false [])).2.2 rfl rfl⟩

/-- C5, the code at the failing input: one tool, single-shot mode, the frame
read fails; switching hemisphere tracking off throws `std::out_of_range`. -/
theorem SetHemisphereTrackingEnabled_throws :
    SetHemisphereTrackingEnabled benchFloat benchDev false
        ⟨⟨false, [], 0, false, []⟩, [], false, 1, [1], []⟩
      = .error .out_of_range := by
  rfl

/-- C9: with a ready connection `GetHemisphere` returns normally; when continuous
tracking is on it sends exactly `StopContPno`, `GetSHemisphere(tool)`,
`StartContPno(0)` in that order, otherwise only `GetSHemisphere(tool)`; the
continuous-tracking flag on return is the one on entry. -/
theorem GetHemisphere_commands {σ : Type} (dev : CPDIdev σ) (_tool : Int)
    (st : PolhemusInterface σ) (hready : dev.CnxReady st.m_pdiDev = true) :
    ∃ v st', GetHemisphere dev _tool st = .ok (v, st') ∧
      st'.issued = st.issued ++
        (if st.m_continousTracking then
          [Cmd.StopContPno, Cmd.GetSHemisphere _tool, Cmd.StartContPno 0]
         else [Cmd.GetSHemisphere _tool]) ∧
      st'.m_continousTracking = st.m_continousTracking := by
  cases hc : st.m_continousTracking
  · simp only [GetHemisphere, hready, hc]
    exact ⟨_, _, rfl, by simp [PolhemusInterface.issue], by simp [PolhemusInterface.issue, hc]⟩
  · simp only [GetHemisphere, hready, hc]
    exact ⟨_, _, rfl, by simp [PolhemusInterface.issue], rfl⟩

theorem GetHemisphere_commands_witness :
    ∃ v st', GetHemisphere benchDev 1
        ⟨⟨true, [], 0, false, [(1, ⟨0, 1, 0⟩)]⟩, [], true, 1, [1], []⟩ = .ok (v, st') ∧
      st'.issued = [] ++
        (if true then [Cmd.StopContPno, Cmd.GetSHemisphere 1, Cmd.StartContPno 0]
         else [Cmd.GetSHemisphere 1]) ∧
      st'.m_continousTracking = true :=
  GetHemisphere_commands benchDev 1
    ⟨⟨true, [], 0, false, [(1, ⟨0, 1, 0⟩)]⟩, [], true, 1, [1], []⟩ rfl

/-! ## Setting and reading a hemisphere with a ready connection -/

theorem GetHemisphere_ready {σ : Type} (dev : CPDIdev σ) (hready : AlwaysReady dev)
    (t : Int) (st : PolhemusInterface σ) :
    ∃ v st', GetHemisphere dev t st = .ok (v, st') ∧
      st'.m_ToolPorts = st.m_ToolPorts ∧ st'.m_Hemispheres = st.m_Hemispheres ∧
      st'.m_numberOfTools = st.m_numberOfTools ∧
      st'.m_continousTracking = st.m_continousTracking ∧
      ∀ X, GetHemisphere dev t { st with m_Hemispheres := X }
        = .ok (v, { st' with m_Hemispheres := X }) := by
  have hr : ∀ s, (!dev.CnxReady s) = false := fun s => by simp [hready s]
  cases hc : st.m_continousTracking
  · simp only [GetHemisphere, hr, hc, Bool.false_eq_true, if_false]
    exact ⟨_, _, rfl, by simp [PolhemusInterface.issue, hc]⟩
  · simp only [GetHemisphere, hr, hc, Bool.false_eq_true, if_false, if_true]
    exact ⟨_, _, rfl, by simp [PolhemusInterface.issue]⟩

theorem snapshot_loop {σ : Type} (dev : CPDIdev σ) (hready : AlwaysReady dev) :
    ∀ (k i : Nat) (st : PolhemusInterface σ), i + k ≤ st.m_ToolPorts.length →
      ∃ hs st1, hemisphereSnapshot dev ((st.m_ToolPorts.drop i).take k) st = .ok (hs, st1) ∧
        hs.length = k ∧
        ∀ X, forLoop (snapshotBody dev) k i { st with m_Hemispheres := X }
          = .ok { st1 with m_Hemispheres := X ++ hs } := by
  intro k
  induction k with
  | zero =>
    intro i st _
    exact ⟨[], st, by simp [hemisphereSnapshot], rfl, fun X => by simp [forLoop]⟩
  | succ k ih =>
    intro i st hi
    have hi' : i < st.m_ToolPorts.length := by omega
    obtain ⟨h, sa, hget, hp, _, _, _, hX⟩ := GetHemisphere_ready dev hready st.m_ToolPorts[i] st
    obtain ⟨hs, s1, hsnap, hlen, hloop⟩ := ih (i + 1) sa (by rw [hp]; omega)
    refine ⟨h :: hs, s1, ?_, by simp [hlen], fun X => ?_⟩
    · rw [List.drop_eq_getElem_cons hi', List.take_succ_cons, hemisphereSnapshot, hget]
      rw [hp] at hsnap
      simp only [hsnap]
    · have hport : ({ st with m_Hemispheres := X } : PolhemusInterface σ).m_ToolPorts[i]?
          = some st.m_ToolPorts[i] := List.getElem?_eq_getElem hi'
      rw [forLoop, snapshotBody]
      simp only [hport, hX X]
      have := hloop (X ++ [h])
      simp only [List.append_assoc, List.singleton_append] at this
      exact this

theorem switchOn_run {σ : Type} (fm : FloatModel) (dev : CPDIdev σ) (hready : AlwaysReady dev)
    (st : PolhemusInterface σ) (hempty : st.m_Hemispheres = [])
    (hports : st.m_numberOfTools ≤ st.m_ToolPorts.length) :
    ∃ hs st1 st', hemisphereSnapshot dev (st.m_ToolPorts.take st.m_numberOfTools) st
        = .ok (hs, st1) ∧ hs.length = st.m_numberOfTools ∧
      SetHemisphereTrackingEnabled fm dev true st = .ok st' ∧ st'.m_Hemispheres = hs := by
  obtain ⟨hs, s1, hsnap, hlen, hloop⟩ := snapshot_loop dev hready st.m_numberOfTools 0 st
    (by omega)
  have hst : ({ st with m_Hemispheres := [] } : PolhemusInterface σ) = st := by
    cases st; simp only [PolhemusInterface.mk.injEq] at *; simp [hempty]
  have hl := hloop []
  rw [hst] at hl
  refine ⟨hs, s1, ?_⟩
  simp only [SetHemisphereTrackingEnabled, hready _, hempty, hl, Bool.not_true,
    Bool.false_eq_true, if_false, if_true, List.isEmpty_nil]
  exact ⟨_, by simpa using hsnap, hlen, rfl, by simp [PolhemusInterface.issue]⟩

/-- C7 as amended: switching hemisphere tracking on with a ready connection
leaves a non-empty cache `m_Hemispheres` unchanged; an empty one, when
`m_ToolPorts` holds a port for each of the `m_numberOfTools` tools, becomes the
list of the vectors `GetHemisphere(m_ToolPorts[i])` for
`i = 0 .. m_numberOfTools-1`, in that order and of length `m_numberOfTools`. -/
theorem hemisphere_tracking_on_snapshot {σ : Type} (fm : FloatModel)
    (dev : CPDIdev σ) (hready : AlwaysReady dev) (st : PolhemusInterface σ) :
    (st.m_Hemispheres ≠ [] →
      ∃ st', SetHemisphereTrackingEnabled fm dev true st = .ok st' ∧
        st'.m_Hemispheres = st.m_Hemispheres) ∧
    (st.m_Hemispheres = [] → st.m_numberOfTools ≤ st.m_ToolPorts.length →
      ∃ hs st1 st', hemisphereSnapshot dev (st.m_ToolPorts.take st.m_numberOfTools) st
          = .ok (hs, st1) ∧ hs.length = st.m_numberOfTools ∧
        SetHemisphereTrackingEnabled fm dev true st = .ok st' ∧ st'.m_Hemispheres = hs) := by
  refine ⟨fun hne => ?_, fun hempty hports => switchOn_run fm dev hready st hempty hports⟩
  have : st.m_Hemispheres.isEmpty = false := by simpa using hne
  simp only [SetHemisphereTrackingEnabled, hready _, this, Bool.not_true,
    Bool.false_eq_true, if_false, if_true]
  exact ⟨_, rfl, by simp [PolhemusInterface.issue]⟩

/-! ## Command order of `ToggleHemisphere` under continuous tracking -/

theorem pausedAfter_append (b : Bool) (a c : List Cmd) :
    pausedAfter b (a ++ c) = pausedAfter (pausedAfter b a) c := by
  simp [pausedAfter, List.foldl_append]

theorem issuedWhile_append (p : Cmd → Bool) (w : Bool) :
    ∀ (a c : List Cmd) (b : Bool),
      issuedWhile p w b (a ++ c) = (issuedWhile p w b a && issuedWhile p w (pausedAfter b a) c) := by
  intro a
  induction a with
  | nil => intro c b; simp [issuedWhile, pausedAfter]
  | cons x a ih =>
    intro c b
    show ((!p x || b == w) && issuedWhile p w (Cmd.pauses b x) (a ++ c)) = _
    rw [ih]
    simp only [issuedWhile, pausedAfter, List.foldl_cons, Bool.and_assoc]

theorem PausesOnlyForReads.append {a c : List Cmd} (ha : PausesOnlyForReads a)
    (hc : PausesOnlyForReads c) : PausesOnlyForReads (a ++ c) := by
  obtain ⟨a1, a2, a3⟩ := ha
  obtain ⟨c1, c2, c3⟩ := hc
  refine ⟨?_, ?_, ?_⟩
  · rw [issuedWhile_append, a1, a3, c1]; rfl
  · rw [issuedWhile_append, a2, a3, c2]; rfl
  · rw [pausedAfter_append, a3, c3]

theorem Extends.refl {σ : Type} (st : PolhemusInterface σ) : Extends st st :=
  ⟨rfl, [], by simp, rfl, rfl, rfl⟩

theorem Extends.trans {σ : Type} {a b c : PolhemusInterface σ} (h1 : Extends a b)
    (h2 : Extends b c) : Extends a c := by
  obtain ⟨f1, s1, e1, p1⟩ := h1
  obtain ⟨f2, s2, e2, p2⟩ := h2
  exact ⟨f2.trans f1, s1 ++ s2, by rw [e2, e1, List.append_assoc], p1.append p2⟩

theorem Extends.cache {σ : Type} {a b : PolhemusInterface σ} (h : Extends a b)
    (X : List Vector3D) : Extends a { b with m_Hemispheres := X } := h

theorem SetHemisphere_extends {σ : Type} (dev : CPDIdev σ) (t : Int) (v : Vector3D)
    (st : PolhemusInterface σ) : Extends st (SetHemisphere dev t v st) := by
  unfold SetHemisphere
  split
  · exact Extends.refl st
  · exact ⟨rfl, [.SetSHemisphere t v], rfl, rfl, rfl, rfl⟩

theorem GetHemisphere_extends {σ : Type} (dev : CPDIdev σ) (t : Int)
    (st st' : PolhemusInterface σ) (v : Vector3D) (hc : st.m_continousTracking = true)
    (h : GetHemisphere dev t st = .ok (v, st')) : Extends st st' := by
  unfold GetHemisphere at h
  split at h
  · cases h
  · simp only [hc, if_true] at h
    cases h
    exact ⟨hc.symm, [.StopContPno, .GetSHemisphere t, .StartContPno 0],
      by simp [PolhemusInterface.issue], rfl, rfl, rfl⟩

theorem readFrame_extends {σ : Type} (fm : FloatModel) (dev : CPDIdev σ)
    (st st' : PolhemusInterface σ) (ps : List trackingData)
    (hc : st.m_continousTracking = true)
    (h : readFrame fm dev st = .ok (ps, st')) : Extends st st' := by
  simp only [readFrame, hc, if_true, GetLastFrame] at h
  split at h
  · cases h
    exact ⟨rfl, [.LastPnoPtr], rfl, rfl, rfl, rfl⟩
  · cases h

theorem forLoop_extends {σ : Type} (body : Nat → PolhemusInterface σ →
      Except Fault (PolhemusInterface σ))
    (hbody : ∀ i s s', s.m_continousTracking = true → body i s = .ok s' → Extends s s') :
    ∀ (k i : Nat) (s s' : PolhemusInterface σ), s.m_continousTracking = true →
      forLoop body k i s = .ok s' → Extends s s' := by
  intro k
  induction k with
  | zero =>
    intro i s s' _ h
    simp only [forLoop] at h
    cases h
    exact Extends.refl s
  | succ k ih =>
    intro i s s' hc h
    rw [forLoop] at h
    split at h
    · rename_i s1 hb
      have e1 := hbody i s s1 hc hb
      exact e1.trans (ih (i + 1) s1 s' (e1.1.trans hc) h)
    · cases h

theorem snapshotBody_extends {σ : Type} (dev : CPDIdev σ) (i : Nat)
    (s s' : PolhemusInterface σ) (hc : s.m_continousTracking = true)
    (h : snapshotBody dev i s = .ok s') : Extends s s' := by
  unfold snapshotBody at h
  split at h
  · cases h
  · split at h
    · rename_i v s1 hg
      cases h
      exact (GetHemisphere_extends dev _ s s1 v hc hg).cache _
    · cases h

theorem toggleBody_extends {σ : Type} (dev : CPDIdev σ) (i : Nat)
    (s s' : PolhemusInterface σ) (hc : s.m_continousTracking = true)
    (h : toggleBody dev i s = .ok s') : Extends s s' := by
  unfold toggleBody at h
  split at h
  · cases h
  · split at h
    · rename_i v s1 hg
      cases h
      exact (GetHemisphere_extends dev _ s s1 v hc hg).trans (SetHemisphere_extends dev _ _ s1)
    · cases h

theorem switchOffBody_extends {σ : Type} (dev : CPDIdev σ) (ps : List trackingData) (i : Nat)
    (s s' : PolhemusInterface σ)
    (h : switchOffBody dev ps i s = .ok s') : Extends s s' := by
  unfold switchOffBody at h
  cases hH : s.m_Hemispheres[i]? with
  | none => simp only [hH] at h; cases h
  | some v =>
    cases hP : ps[i]? with
    | none => simp only [hH, hP] at h; cases h
    | some p =>
      cases hT : s.m_ToolPorts[i]? with
      | none => simp only [hH, hP, hT] at h; cases h
      | some port =>
        simp only [hH, hP, hT] at h
        cases h
        exact SetHemisphere_extends dev _ _ _

theorem SetHemisphereTrackingEnabled_extends {σ : Type} (fm : FloatModel) (dev : CPDIdev σ)
    (b : Bool) (s s' : PolhemusInterface σ) (hc : s.m_continousTracking = true)
    (h : SetHemisphereTrackingEnabled fm dev b s = .ok s') : Extends s s' := by
  unfold SetHemisphereTrackingEnabled at h
  split at h
  · cases h; exact Extends.refl s
  · cases b
    · simp only [Bool.false_eq_true, if_false] at h
      split at h
      · cases h
      · rename_i ps s1 hf
        have e1 := readFrame_extends fm dev s s1 ps hc hf
        split at h
        · rename_i s2 hl
          cases h
          have e2 : Extends s1 (if s1.m_Hemispheres.isEmpty then
              { s1 with m_Hemispheres := List.replicate s1.m_numberOfTools defaultHemisphere }
              else s1) := by
            split
            · exact (Extends.refl s1).cache _
            · exact Extends.refl s1
          have hc2 := e2.1.trans (e1.1.trans hc)
          have e3 := forLoop_extends (switchOffBody dev ps)
            (fun i a a' _ ha => switchOffBody_extends dev ps i a a' ha) _ 0 _ s2 hc2 hl
          exact ((e1.trans e2).trans e3).cache _
        · cases h
    · simp only [if_true] at h
      split at h
      · rename_i s1 hl
        cases h
        have e1 : Extends s s1 := by
          split at hl
          · exact forLoop_extends (snapshotBody dev)
              (fun i a a' ha hb => snapshotBody_extends dev i a a' ha hb) _ 0 s s1 hc hl
          · cases hl; exact Extends.refl s
        exact e1.trans ⟨rfl, [.SetSHemiTrack (-1)], rfl, rfl, rfl, rfl⟩
      · cases h

theorem ToggleHemisphere_extends {σ : Type} (fm : FloatModel) (dev : CPDIdev σ)
    (_tool : Int) (st st' : PolhemusInterface σ) (hc : st.m_continousTracking = true)
    (h : ToggleHemisphere fm dev _tool st = .ok st') : Extends st st' := by
  unfold ToggleHemisphere at h
  split at h
  · cases h; exact Extends.refl st
  · simp only [hc, if_true, PolhemusInterface.issue] at h
    generalize hs0 : (⟨dev.StartContPno 0 (dev.GetSHemiTrack _tool (dev.StopContPno st.m_pdiDev)).2,
        st.issued ++ [Cmd.StopContPno] ++ [Cmd.GetSHemiTrack _tool] ++ [Cmd.StartContPno 0],
        true, st.m_numberOfTools, st.m_ToolPorts, st.m_Hemispheres⟩ : PolhemusInterface σ)
      = s0 at h
    have e0 : Extends st s0 := by
      rw [← hs0]
      exact ⟨hc.symm, [.StopContPno, .GetSHemiTrack _tool, .StartContPno 0], by simp,
        rfl, rfl, rfl⟩
    have c0 : s0.m_continousTracking = true := e0.1.trans hc
    split at h
    · cases h
    · rename_i s1 h1
      have e1 : Extends s0 s1 := by
        split at h1
        · exact SetHemisphereTrackingEnabled_extends fm dev false s0 s1 c0 h1
        · cases h1; exact Extends.refl _
      have c1 : s1.m_continousTracking = true := e1.1.trans c0
      split at h
      · cases h
      · rename_i s2 h2
        have e2 : Extends s1 s2 := by
          split at h2
          · exact forLoop_extends (toggleBody dev)
              (fun i a a' ha hb => toggleBody_extends dev i a a' ha hb) _ 0 s1 s2 c1 h2
          · split at h2
            · rename_i v s3 hg
              cases h2
              exact (GetHemisphere_extends dev _ s1 s3 v c1 hg).trans
                (SetHemisphere_extends dev _ _ s3)
            · cases h2
        have c2 : s2.m_continousTracking = true := e2.1.trans c1
        have e3 : Extends s2 st' := by
          split at h
          · exact SetHemisphereTrackingEnabled_extends fm dev true s2 st' c2 h
          · cases h; exact Extends.refl _
        exact ((e0.trans e1).trans e2).trans e3

/-- C10 as amended: `ToggleHemisphere` with continuous tracking on pauses
acquisition for the reads only.  In the commands it issues, every read of device
state (`GetSHemiTrack`, `GetSHemisphere`) occurs after a `StopContPno` and
before the next `StartContPno`, and every `SetSHemisphere` is issued while
acquisition is running.  For a single tool without hemisphere tracking the
commands are stop, `GetSHemiTrack`, restart, stop, `GetSHemisphere`, restart,
`SetSHemisphere`, in that order. -/
theorem ToggleHemisphere_pauses_for_reads {σ : Type} (fm : FloatModel) (dev : CPDIdev σ)
    (_tool : Int) (st : PolhemusInterface σ) (hc : st.m_continousTracking = true) :
    (∀ st', ToggleHemisphere fm dev _tool st = .ok st' →
      ∃ seg, st'.issued = st.issued ++ seg ∧
        issuedWhile Cmd.isStateRead true false seg = true ∧
        issuedWhile Cmd.isSetSHemisphere false false seg = true) ∧
    (AlwaysReady dev → _tool ≠ -1 →
      (dev.GetSHemiTrack _tool (dev.StopContPno st.m_pdiDev)).1 = false →
      ∃ v st', ToggleHemisphere fm dev _tool st = .ok st' ∧
        st'.issued = st.issued ++ [Cmd.StopContPno, Cmd.GetSHemiTrack _tool,
          Cmd.StartContPno 0, Cmd.StopContPno, Cmd.GetSHemisphere _tool,
          Cmd.StartContPno 0, Cmd.SetSHemisphere _tool v]) := by
  constructor
  · intro st' h
    obtain ⟨_, seg, hseg, h1, h2, _⟩ := ToggleHemisphere_extends fm dev _tool st st' hc h
    exact ⟨seg, hseg, h1, h2⟩
  · intro hready htool htrack
    have hr : ∀ s, (!dev.CnxReady s) = false := fun s => by simp [hready s]
    simp only [ToggleHemisphere, GetHemisphere, SetHemisphere, hr, hc, htrack, htool,
      PolhemusInterface.issue, Bool.false_eq_true, if_false, if_true]
    exact ⟨(dev.GetSHemisphere _tool (dev.StopContPno (dev.StartContPno 0
      (dev.GetSHemiTrack _tool (dev.StopContPno st.m_pdiDev)).2))).1.negated, _, rfl, by simp⟩

/-! ## Runs on the simulated tracker -/

theorem benchFrame_records :
    benchFrame = [benchRecord 1 3 0 0, benchRecord 2 (-1) 0 0].flatten := by
  simp [benchFrame]

theorem benchFrame_parse :
    ParsePolhemusRawData benchFloat benchFrame 72 = .ok benchPositions := by
  have h := ParsePolhemusRawData_records benchFloat [benchRecord 1 3 0 0, benchRecord 2 (-1) 0 0]
    (by
      intro r hr
      simp only [List.mem_cons, List.mem_singleton, List.not_mem_nil, or_false] at hr
      rcases hr with rfl | rfl <;> exact benchRecord_wellFormed _ _ _ _)
    (by simp [benchRecord, le32, DWORD_RANGE])
  rw [← benchFrame_records] at h
  have hl : benchFrame.length = 72 := by simp [benchFrame, benchRecord, le32]
  rw [hl] at h
  exact h

theorem benchDev_ready : AlwaysReady benchDev := fun _ => rfl

/-- C1: for a buffer that is the concatenation of `N >= 0` well-formed records
and `dwSize` (a `DWORD`) equal to the buffer length, `ParsePolhemusRawData`
returns, and returns exactly `N` tracking-data entries. -/
theorem ParsePolhemusRawData_count (fm : FloatModel) (recs : List (List Nat))
    (hwf : ∀ r ∈ recs, WellFormedRecord r) (hsize : recs.flatten.length < DWORD_RANGE) :
    ∃ returnValue, ParsePolhemusRawData fm recs.flatten recs.flatten.length = .ok returnValue ∧
      returnValue.length = recs.length :=
  ⟨_, ParsePolhemusRawData_records fm recs hwf hsize, by simp⟩

theorem ParsePolhemusRawData_count_witness :
    ∃ returnValue, ParsePolhemusRawData benchFloat
        [benchRecord 1 3 0 0, benchRecord 2 (-1) 0 0].flatten
        [benchRecord 1 3 0 0, benchRecord 2 (-1) 0 0].flatten.length = .ok returnValue ∧
      returnValue.length = [benchRecord 1 3 0 0, benchRecord 2 (-1) 0 0].length :=
  ParsePolhemusRawData_count benchFloat [benchRecord 1 3 0 0, benchRecord 2 (-1) 0 0]
    (by
      intro r hr
      simp only [List.mem_cons, List.mem_singleton, List.not_mem_nil, or_false] at hr
      rcases hr with rfl | rfl <;> simp [WellFormedRecord, benchRecord, le32])
    (by simp [benchRecord, le32, DWORD_RANGE])

/-! ## The hemisphere claims at concrete inputs -/

theorem hemisphere_tracking_on_snapshot_witness :
    (∃ st', SetHemisphereTrackingEnabled benchFloat benchDev true
        (benchState true [⟨0, 1, 0⟩, ⟨0, 0, 1⟩]) = .ok st' ∧
      st'.m_Hemispheres = [⟨0, 1, 0⟩, ⟨0, 0, 1⟩]) ∧
    (∃ hs st1 st', hemisphereSnapshot benchDev [1, 2] (benchState true []) = .ok (hs, st1) ∧
      hs.length = 2 ∧
      SetHemisphereTrackingEnabled benchFloat benchDev true (benchState true []) = .ok st' ∧
      st'.m_Hemispheres = hs) :=
  ⟨(hemisphere_tracking_on_snapshot benchFloat benchDev benchDev_ready
      (benchState true [⟨0, 1, 0⟩, ⟨0, 0, 1⟩])).1 (by simp [benchState]),
   (hemisphere_tracking_on_snapshot benchFloat benchDev benchDev_ready
      (benchState true [])).2 rfl (by decide)⟩

/-- C10 as stated fails: toggling tool 1 with continuous tracking on sends
`SetSHemisphere` after the `StartContPno` that follows the read, so the
mutation is not issued while acquisition is paused. -/
theorem ToggleHemisphere_sets_while_running :
    ∃ st', ToggleHemisphere benchFloat benchDev 1 (benchState true []) = .ok st' ∧
      st'.issued = [Cmd.StopContPno, Cmd.GetSHemiTrack 1, Cmd.StartContPno 0,
        Cmd.StopContPno, Cmd.GetSHemisphere 1, Cmd.StartContPno 0,
        Cmd.SetSHemisphere 1 ⟨-1, 0, 0⟩] ∧
      issuedWhile Cmd.isSetSHemisphere true false st'.issued = false := by
  simp [ToggleHemisphere, GetHemisphere, SetHemisphere, benchState, benchDev, benchTracker,
    PolhemusInterface.issue, BenchTracker.hemisphere, List.lookup, Vector3D.negated,
    issuedWhile, Cmd.isSetSHemisphere, Cmd.pauses]

theorem ToggleHemisphere_pauses_for_reads_witness :
    (∃ seg, (benchState true []).issued ++ [Cmd.StopContPno, Cmd.GetSHemiTrack 1,
          Cmd.StartContPno 0, Cmd.StopContPno, Cmd.GetSHemisphere 1, Cmd.StartContPno 0,
          Cmd.SetSHemisphere 1 ⟨-1, 0, 0⟩] = (benchState true []).issued ++ seg ∧
      issuedWhile Cmd.isStateRead true false seg = true ∧
      issuedWhile Cmd.isSetSHemisphere false false seg = true) ∧
    (∃ v st', ToggleHemisphere benchFloat benchDev 1 (benchState true []) = .ok st' ∧
      st'.issued = (benchState true []).issued ++ [Cmd.StopContPno, Cmd.GetSHemiTrack 1,
        Cmd.StartContPno 0, Cmd.StopContPno, Cmd.GetSHemisphere 1, Cmd.StartContPno 0,
        Cmd.SetSHemisphere 1 v]) :=
  ⟨(ToggleHemisphere_pauses_for_reads benchFloat benchDev 1 (benchState true []) rfl).1
    ⟨⟨true, benchFrame, 72, false, [(1, ⟨-1, 0, 0⟩), (1, ⟨1, 0, 0⟩), (2, ⟨1, 0, 0⟩)]⟩,
      [Cmd.StopContPno, Cmd.GetSHemiTrack 1, Cmd.StartContPno 0,
        Cmd.StopContPno, Cmd.GetSHemisphere 1, Cmd.StartContPno 0,
        Cmd.SetSHemisphere 1 ⟨-1, 0, 0⟩], true, 2, [1, 2], []⟩
    (by
      simp [ToggleHemisphere, GetHemisphere, SetHemisphere, benchState, benchDev, benchTracker,
        PolhemusInterface.issue, BenchTracker.hemisphere, List.lookup, Vector3D.negated]),
   (ToggleHemisphere_pauses_for_reads benchFloat benchDev 1 (benchState true []) rfl).2
    benchDev_ready (by decide) rfl⟩

/-! ## The parser on arbitrary buffers -/

theorem readBYTE_total (pBuf : List Nat) (off : Nat) :
    (∃ b, readBYTE pBuf off = .ok b ∧ off < pBuf.length ∧ b ≤ 255) ∨
    (readBYTE pBuf off = .error .undefined_behaviour ∧ pBuf.length ≤ off) := by
  unfold readBYTE
  by_cases h : off < pBuf.length
  · left
    rw [List.getElem?_eq_getElem h]
    exact ⟨_, rfl, h, by omega⟩
  · right
    rw [List.getElem?_eq_none (by omega)]
    exact ⟨rfl, by omega⟩

theorem readFLOAT_total (fm : FloatModel) (pBuf : List Nat) (off : Nat) :
    (∃ x, readFLOAT fm pBuf off = .ok x ∧ off + 3 < pBuf.length) ∨
    (readFLOAT fm pBuf off = .error .undefined_behaviour ∧ pBuf.length ≤ off + 3) := by
  unfold readFLOAT
  rcases readBYTE_total pBuf off with ⟨b0, h0, l0, _⟩ | ⟨h0, l0⟩ <;>
  rcases readBYTE_total pBuf (off + 1) with ⟨b1, h1, l1, _⟩ | ⟨h1, l1⟩ <;>
  rcases readBYTE_total pBuf (off + 2) with ⟨b2, h2, l2, _⟩ | ⟨h2, l2⟩ <;>
  rcases readBYTE_total pBuf (off + 3) with ⟨b3, h3, l3, _⟩ | ⟨h3, l3⟩ <;>
  rw [h0, h1, h2, h3] <;>
  first
    | exact Or.inl ⟨_, rfl, l3⟩
    | exact Or.inr ⟨rfl, by omega⟩

theorem readsInside_iff (pBuf : List Nat) (i : Nat) :
    readsInside pBuf i ↔
      (i + 2) % DWORD_RANGE < pBuf.length ∧ (i + 6) % DWORD_RANGE < pBuf.length ∧
      ((i + 8) % DWORD_RANGE + 4) % DWORD_RANGE + 23 < pBuf.length := by
  unfold readsInside parseStepReads
  constructor
  · intro h
    refine ⟨h _ (by simp), h _ (by simp), ?_⟩
    have := h (((i + 8) % DWORD_RANGE + 4) % DWORD_RANGE + 23)
      (by simp [List.mem_range'_1])
    exact this
  · intro ⟨h2, h6, hf⟩ off hoff
    simp only [List.mem_append, List.mem_cons, List.mem_singleton, List.not_mem_nil, or_false,
      List.mem_range'_1] at hoff
    rcases hoff with (rfl | rfl) | ⟨_, hlt⟩
    · exact h2
    · exact h6
    · omega

theorem parseStep_total (fm : FloatModel) (pBuf : List Nat) (i : Nat) :
    (∃ e shSize, shSize ≤ 255 ∧ readsInside pBuf i ∧
      parseStep fm pBuf i = .ok (e, ((i + 8) % DWORD_RANGE + shSize) % DWORD_RANGE)) ∨
    (parseStep fm pBuf i = .error .undefined_behaviour ∧ ¬ readsInside pBuf i) := by
  rw [readsInside_iff]
  unfold parseStep
  rcases readBYTE_total pBuf ((i + 2) % DWORD_RANGE) with ⟨b2, h2, l2, _⟩ | ⟨h2, l2⟩
  · rcases readBYTE_total pBuf ((i + 6) % DWORD_RANGE) with ⟨b6, h6, l6, hb6⟩ | ⟨h6, l6⟩
    · rcases readFLOAT_total fm pBuf (((i + 8) % DWORD_RANGE + 4) % DWORD_RANGE) with ⟨x0, f0, m0⟩ | ⟨f0, m0⟩
      · rcases readFLOAT_total fm pBuf (((i + 8) % DWORD_RANGE + 4) % DWORD_RANGE + 4) with ⟨x1, f1, m1⟩ | ⟨f1, m1⟩
        · rcases readFLOAT_total fm pBuf (((i + 8) % DWORD_RANGE + 4) % DWORD_RANGE + 8) with ⟨x2, f2, m2⟩ | ⟨f2, m2⟩
          · rcases readFLOAT_total fm pBuf (((i + 8) % DWORD_RANGE + 4) % DWORD_RANGE + 12) with ⟨x3, f3, m3⟩ | ⟨f3, m3⟩
            · rcases readFLOAT_total fm pBuf (((i + 8) % DWORD_RANGE + 4) % DWORD_RANGE + 16) with ⟨x4, f4, m4⟩ | ⟨f4, m4⟩
              · rcases readFLOAT_total fm pBuf (((i + 8) % DWORD_RANGE + 4) % DWORD_RANGE + 20) with ⟨x5, f5, m5⟩ | ⟨f5, m5⟩
                · left
                  simp only [h2, h6, f0, f1, f2, f3, f4, f5, bind, Except.bind, pure,
                    Except.pure]
                  exact ⟨_, b6, hb6, ⟨l2, l6, by omega⟩, rfl⟩
                · right
                  exact ⟨by simp only [h2, h6, f0, f1, f2, f3, f4, f5, bind, Except.bind], by omega⟩
              · right
                exact ⟨by simp only [h2, h6, f0, f1, f2, f3, f4, bind, Except.bind], by omega⟩
            · right
              exact ⟨by simp only [h2, h6, f0, f1, f2, f3, bind, Except.bind], by omega⟩
          · right
            exact ⟨by simp only [h2, h6, f0, f1, f2, bind, Except.bind], by omega⟩
        · right
          exact ⟨by simp only [h2, h6, f0, f1, bind, Except.bind], by omega⟩
      · right
        exact ⟨by simp only [h2, h6, f0, bind, Except.bind], by omega⟩
    · right
      exact ⟨by simp only [h2, h6, bind, Except.bind], by omega⟩
  · right
    exact ⟨by simp only [h2, bind, Except.bind], by omega⟩

theorem parseStepReads_eq (i : Nat) (hwrap : i + 35 < DWORD_RANGE) :
    parseStepReads i = [i + 2, i + 6] ++ List.range' (i + 12) 24 := by
  unfold parseStepReads
  rw [Nat.mod_eq_of_lt (by omega : i + 2 < DWORD_RANGE),
    Nat.mod_eq_of_lt (by omega : i + 6 < DWORD_RANGE),
    Nat.mod_eq_of_lt (by omega : i + 8 < DWORD_RANGE),
    Nat.mod_eq_of_lt (by omega : i + 8 + 4 < DWORD_RANGE)]

theorem readsInside_of_room (pBuf : List Nat) (i : Nat) (hwrap : i + 35 < DWORD_RANGE)
    (hmem : i + 35 < pBuf.length) : readsInside pBuf i := by
  unfold readsInside
  rw [parseStepReads_eq i hwrap]
  intro off hoff
  simp only [List.mem_append, List.mem_cons, List.mem_singleton, List.not_mem_nil, or_false,
    List.mem_range'_1] at hoff
  omega

theorem parseStep_room (fm : FloatModel) (pBuf : List Nat) (i : Nat)
    (hwrap : i + 35 < DWORD_RANGE) (hmem : i + 35 < pBuf.length) :
    ∃ e next, parseStep fm pBuf i = .ok (e, next) := by
  rcases parseStep_total fm pBuf i with ⟨e, L, _, _, h⟩ | ⟨_, h⟩
  · exact ⟨e, _, h⟩
  · exact absurd (readsInside_of_room pBuf i hwrap hmem) h

theorem parseLoop_pass (fm : FloatModel) (pBuf : List Nat) (dwSize fuel i next : Nat)
    (returnValue : List trackingData) (e : trackingData) (hi : i < dwSize)
    (h : parseStep fm pBuf i = .ok (e, next)) :
    parseLoop fm pBuf dwSize (fuel + 1) i returnValue
      = parseLoop fm pBuf dwSize fuel next (returnValue ++ [e]) := by
  rw [parseLoop, if_pos hi, h]

theorem parseLoop_fault (fm : FloatModel) (pBuf : List Nat) (dwSize fuel i : Nat)
    (returnValue : List trackingData) (hi : i < dwSize) (h : ¬ readsInside pBuf i) :
    parseLoop fm pBuf dwSize (fuel + 1) i returnValue = .error .undefined_behaviour := by
  rcases parseStep_total fm pBuf i with ⟨_, _, _, hin, _⟩ | ⟨herr, _⟩
  · exact absurd hin h
  · rw [parseLoop, if_pos hi, herr]

theorem parseLoop_done (fm : FloatModel) (pBuf : List Nat) (dwSize fuel i : Nat)
    (returnValue : List trackingData) (hi : dwSize ≤ i) :
    parseLoop fm pBuf dwSize fuel i returnValue = .ok returnValue := by
  cases fuel <;> simp [parseLoop, Nat.not_lt.2 hi]

/-- C14 as stated fails: a pass does not stop at offset `i + 31`.  With 32 bytes
of memory and `dwSize = 32` all offsets 2 .. 31 exist, yet the pass at cursor 0
reads offset 35 and no entry is appended. -/
theorem ParsePolhemusRawData_reads_past_31 :
    (∀ off, 2 ≤ off → off ≤ 31 → off < (zeroBuffer 32).length) ∧
    35 ∈ parseStepReads 0 ∧
    ParsePolhemusRawData benchFloat (zeroBuffer 32) 32 = .error .undefined_behaviour := by
  refine ⟨fun off _ h => by simp [zeroBuffer]; omega, by decide, ?_⟩
  exact parseLoop_fault benchFloat (zeroBuffer 32) 32 31 0 [] (by decide) (fun h => by
    have := h 35 (by decide)
    simp [zeroBuffer] at this)

/-- C14 as amended: `ParsePolhemusRawData` performs no bounds validation.
Whenever its cursor `i` is below `dwSize` the pass reads the offsets `i + 2`,
`i + 6` and `i + 12 .. i + 35` and, these bytes being there, appends an entry,
whatever `dwSize` is; hence for some buffer with `0 < dwSize < 36` it reads
bytes at offsets `>= dwSize` and still returns an entry without a fault. -/
theorem ParsePolhemusRawData_no_bounds_validation (fm : FloatModel) (pBuf : List Nat)
    (dwSize fuel i : Nat) (returnValue : List trackingData) (hi : i < dwSize)
    (hwrap : i + 35 < DWORD_RANGE) (hmem : i + 35 < pBuf.length) :
    parseStepReads i = [i + 2, i + 6] ++ List.range' (i + 12) 24 ∧
    (∃ currentTrackingData next,
      parseLoop fm pBuf dwSize (fuel + 1) i returnValue
        = parseLoop fm pBuf dwSize fuel next (returnValue ++ [currentTrackingData])) ∧
    (∃ buf size out off, 0 < size ∧ size < 36 ∧
      ParsePolhemusRawData fm buf size = .ok out ∧ out ≠ [] ∧
      off ∈ parseStepReads 0 ∧ size ≤ off) := by
  refine ⟨parseStepReads_eq i hwrap, ?_, ?_⟩
  · obtain ⟨e, next, h⟩ := parseStep_room fm pBuf i hwrap hmem
    exact ⟨e, next, parseLoop_pass fm pBuf dwSize fuel i next returnValue e hi h⟩
  · have hstep := parseStep_record fm [] (benchRecord 1 3 0 0) []
      (benchRecord_wellFormed 1 3 0 0) (by simp [benchRecord, le32, DWORD_RANGE])
    simp only [List.nil_append, List.append_nil, List.length_nil, Nat.zero_add] at hstep
    refine ⟨benchRecord 1 3 0 0, 1, [decodeRecord fm (benchRecord 1 3 0 0)], 35,
      by decide, by decide, ?_, by simp, by decide, by decide⟩
    have h1 := parseLoop_pass fm (benchRecord 1 3 0 0) 1 0 0 _ [] _ (by decide) hstep
    rw [ParsePolhemusRawData, h1]
    exact parseLoop_done _ _ _ _ _ _ (by simp [benchRecord, le32])

theorem ParsePolhemusRawData_no_bounds_validation_witness :
    (∃ currentTrackingData next,
      parseLoop benchFloat benchFrame 40 (0 + 1) 36 [decodeRecord benchFloat (benchRecord 1 3 0 0)]
        = parseLoop benchFloat benchFrame 40 0 next
            ([decodeRecord benchFloat (benchRecord 1 3 0 0)] ++ [currentTrackingData])) ∧
    71 ∈ parseStepReads 36 :=
  ⟨(ParsePolhemusRawData_no_bounds_validation benchFloat benchFrame 40 0 36
      [decodeRecord benchFloat (benchRecord 1 3 0 0)] (by decide) (by decide)
      (by simp [benchFrame, benchRecord, le32])).2.1, by decide⟩

theorem parseCursors_records (fm : FloatModel) (recs : List (List Nat)) :
    ∀ (pre : List Nat) (fuel : Nat), (∀ r ∈ recs, WellFormedRecord r) →
      (pre ++ recs.flatten).length < DWORD_RANGE →
      ∀ i ∈ parseCursors fm (pre ++ recs.flatten) (pre ++ recs.flatten).length fuel pre.length,
        i + 36 ≤ (pre ++ recs.flatten).length := by
  induction recs with
  | nil =>
    intro pre fuel _ _ i hi
    cases fuel <;> simp [parseCursors] at hi
  | cons r rs ih =>
    intro pre fuel hwf hlen i hi
    have hr : WellFormedRecord r := hwf r (List.mem_cons_self r rs)
    have hrs : ∀ q ∈ rs, WellFormedRecord q := fun q hq => hwf q (List.mem_cons_of_mem r hq)
    have hbuf : pre ++ (r :: rs).flatten = (pre ++ r) ++ rs.flatten := by simp
    rw [hbuf] at hlen hi ⊢
    have hrl := hr.2.2
    have h28 := hr.1
    cases fuel with
    | zero => simp [parseCursors] at hi
    | succ fuel =>
      have hstep := parseStep_record fm pre r rs.flatten hr (by
        simp only [List.length_append] at hlen ⊢; omega)
      have hlt : pre.length < (pre ++ r ++ rs.flatten).length := by
        simp only [List.length_append]; omega
      rw [parseCursors, if_pos hlt, hstep] at hi
      rcases List.mem_cons.1 hi with rfl | hi'
      · simp only [List.length_append]; omega
      · have := ih (pre ++ r) fuel hrs hlen i (by simpa only [List.length_append] using hi')
        exact this

/-- C16: for a buffer that is the concatenation of well-formed records, with
`dwSize` (a `DWORD`) equal to its length, `ParsePolhemusRawData` returns without
a fault, and at every cursor with which the loop enters its body the bytes it
reads (offsets 2 and 6 of the header, the six floats) and the bytes of the
frame counter lie at offsets below `dwSize`. -/
theorem ParsePolhemusRawData_reads_in_bounds (fm : FloatModel) (recs : List (List Nat))
    (hwf : ∀ r ∈ recs, WellFormedRecord r) (hsize : recs.flatten.length < DWORD_RANGE) :
    (∃ returnValue,
      ParsePolhemusRawData fm recs.flatten recs.flatten.length = .ok returnValue) ∧
    ∀ i ∈ parseCursors fm recs.flatten recs.flatten.length recs.flatten.length 0,
      (∀ off ∈ parseStepReads i, off < recs.flatten.length) ∧
      (∀ off ∈ frameCounterOffsets i, off < recs.flatten.length) := by
  refine ⟨⟨_, ParsePolhemusRawData_records fm recs hwf hsize⟩, fun i hi => ?_⟩
  have h := parseCursors_records fm recs [] recs.flatten.length hwf (by simpa using hsize) i
    (by simpa using hi)
  simp only [List.nil_append] at h
  have hw : i + 35 < DWORD_RANGE := by omega
  constructor
  · intro off hoff
    rw [parseStepReads_eq i hw] at hoff
    simp only [List.mem_append, List.mem_cons, List.mem_singleton, List.not_mem_nil, or_false,
      List.mem_range'_1] at hoff
    omega
  · intro off hoff
    unfold frameCounterOffsets at hoff
    rw [Nat.mod_eq_of_lt (by omega : i + 8 < DWORD_RANGE)] at hoff
    simp only [List.mem_range'_1] at hoff
    omega

theorem ParsePolhemusRawData_reads_in_bounds_witness :
    (∃ returnValue, ParsePolhemusRawData benchFloat
        [benchRecord 1 3 0 0, benchRecord 2 (-1) 0 0].flatten
        [benchRecord 1 3 0 0, benchRecord 2 (-1) 0 0].flatten.length = .ok returnValue) ∧
    ∀ i ∈ parseCursors benchFloat [benchRecord 1 3 0 0, benchRecord 2 (-1) 0 0].flatten
        [benchRecord 1 3 0 0, benchRecord 2 (-1) 0 0].flatten.length
        [benchRecord 1 3 0 0, benchRecord 2 (-1) 0 0].flatten.length 0,
      (∀ off ∈ parseStepReads i,
        off < [benchRecord 1 3 0 0, benchRecord 2 (-1) 0 0].flatten.length) ∧
      (∀ off ∈ frameCounterOffsets i,
        off < [benchRecord 1 3 0 0, benchRecord 2 (-1) 0 0].flatten.length) :=
  ParsePolhemusRawData_reads_in_bounds benchFloat [benchRecord 1 3 0 0, benchRecord 2 (-1) 0 0]
    (by
      intro r hr
      simp only [List.mem_cons, List.mem_singleton, List.not_mem_nil, or_false] at hr
      rcases hr with rfl | rfl <;> simp [WellFormedRecord, benchRecord, le32])
    (by simp [benchRecord, le32, DWORD_RANGE])

/-! ## Termination of the parser -/

theorem parseStep_advance (fm : FloatModel) (pBuf : List Nat) (i next : Nat)
    (e : trackingData) (hi : i + 263 < DWORD_RANGE)
    (h : parseStep fm pBuf i = .ok (e, next)) : i + 8 ≤ next ∧ next ≤ i + 263 := by
  rcases parseStep_total fm pBuf i with ⟨e', L, hL, _, h'⟩ | ⟨h', _⟩
  · rw [h] at h'
    injection h' with h'
    have hn : next = ((i + 8) % DWORD_RANGE + L) % DWORD_RANGE := (Prod.mk.inj h').2
    rw [Nat.mod_eq_of_lt (by omega : i + 8 < DWORD_RANGE),
      Nat.mod_eq_of_lt (by omega : i + 8 + L < DWORD_RANGE)] at hn
    omega
  · rw [h] at h'; cases h'

theorem parseStep_error (fm : FloatModel) (pBuf : List Nat) (i : Nat) (f : Fault)
    (h : parseStep fm pBuf i = .error f) : f = .undefined_behaviour := by
  rcases parseStep_total fm pBuf i with ⟨_, _, _, _, h'⟩ | ⟨h', _⟩
  · rw [h] at h'; cases h'
  · rw [h] at h'; injection h'

theorem parseLoop_ends (fm : FloatModel) (pBuf : List Nat) (dwSize : Nat)
    (hsize : dwSize + 263 < DWORD_RANGE) :
    ∀ (fuel i : Nat) (acc : List trackingData), dwSize ≤ i + 8 * fuel →
      parseLoop fm pBuf dwSize fuel i acc ≠ .error .non_termination := by
  intro fuel
  induction fuel with
  | zero =>
    intro i acc h
    rw [parseLoop_done fm pBuf dwSize 0 i acc (by omega)]
    exact fun h => by cases h
  | succ fuel ih =>
    intro i acc h
    by_cases hi : i < dwSize
    · rw [parseLoop, if_pos hi]
      cases hs : parseStep fm pBuf i with
      | error f =>
        rw [parseStep_error fm pBuf i f hs]
        exact fun h => by cases h
      | ok r =>
        obtain ⟨e, next⟩ := r
        have := parseStep_advance fm pBuf i next e (by omega) hs
        exact ih next _ (by omega)
    · rw [parseLoop_done fm pBuf dwSize _ i acc (by omega)]
      exact fun h => by cases h

theorem parseLoop_fuel (fm : FloatModel) (pBuf : List Nat) (dwSize : Nat)
    (hsize : dwSize + 263 < DWORD_RANGE) :
    ∀ (fuel1 fuel2 i : Nat) (acc : List trackingData), dwSize ≤ i + 8 * fuel1 →
      dwSize ≤ i + 8 * fuel2 →
      parseLoop fm pBuf dwSize fuel1 i acc = parseLoop fm pBuf dwSize fuel2 i acc := by
  intro fuel1
  induction fuel1 with
  | zero =>
    intro fuel2 i acc h1 _
    rw [parseLoop_done fm pBuf dwSize 0 i acc (by omega),
      parseLoop_done fm pBuf dwSize fuel2 i acc (by omega)]
  | succ fuel1 ih =>
    intro fuel2 i acc h1 h2
    by_cases hi : i < dwSize
    · obtain ⟨fuel2, rfl⟩ : ∃ k, fuel2 = k + 1 := ⟨fuel2 - 1, by omega⟩
      rw [parseLoop, parseLoop, if_pos hi, if_pos hi]
      cases hs : parseStep fm pBuf i with
      | error f => rfl
      | ok r =>
        obtain ⟨e, next⟩ := r
        have := parseStep_advance fm pBuf i next e (by omega) hs
        exact ih fuel2 next _ (by omega) (by omega)
    · rw [parseLoop_done fm pBuf dwSize _ i acc (by omega),
        parseLoop_done fm pBuf dwSize fuel2 i acc (by omega)]

theorem parseLoop_length (fm : FloatModel) (pBuf : List Nat) (dwSize : Nat) :
    ∀ (fuel i : Nat) (acc out : List trackingData),
      parseLoop fm pBuf dwSize fuel i acc = .ok out → out.length ≤ acc.length + fuel := by
  intro fuel
  induction fuel with
  | zero =>
    intro i acc out h
    rw [parseLoop] at h
    split at h
    · cases h
    · cases h; simp
  | succ fuel ih =>
    intro i acc out h
    rw [parseLoop] at h
    split at h
    · split at h
      · have := ih _ _ _ h
        simp only [List.length_append, List.length_singleton] at this
        omega
      · cases h
    · cases h; omega

theorem parseCursors_length (fm : FloatModel) (pBuf : List Nat) (dwSize : Nat)
    (hsize : dwSize + 263 < DWORD_RANGE) :
    ∀ (fuel i : Nat), 8 * (parseCursors fm pBuf dwSize fuel i).length ≤ dwSize + 7 - i := by
  intro fuel
  induction fuel with
  | zero => intro i; simp [parseCursors]
  | succ fuel ih =>
    intro i
    rw [parseCursors]
    split
    · rename_i hi
      cases hs : parseStep fm pBuf i with
      | error f => simp only [List.length_cons, List.length_nil]; omega
      | ok r =>
        obtain ⟨e, next⟩ := r
        have := parseStep_advance fm pBuf i next e (by omega) hs
        have := ih next
        simp only [List.length_cons]
        omega
    · simp

/-- C17: for every buffer, well-formed or not, and every
`dwSize < 2^32 - 263` (no wrap-around of the cursor) `ParsePolhemusRawData`
ends: the declared length is one byte, so every pass advances the cursor by at
least 8 and at most 263, the loop makes at most `ceil(dwSize / 8)` passes and a
result has at most `ceil(dwSize / 8)` entries. -/
theorem ParsePolhemusRawData_terminates (fm : FloatModel) (pBuf : List Nat) (dwSize : Nat)
    (hsize : dwSize < DWORD_RANGE - 263) :
    ParsePolhemusRawData fm pBuf dwSize ≠ .error .non_termination ∧
    ParsePolhemusRawData fm pBuf dwSize = parseLoop fm pBuf dwSize ((dwSize + 7) / 8) 0 [] ∧
    (∀ fuel, (parseCursors fm pBuf dwSize fuel 0).length ≤ (dwSize + 7) / 8) ∧
    (∀ out, ParsePolhemusRawData fm pBuf dwSize = .ok out → out.length ≤ (dwSize + 7) / 8) ∧
    (∀ i e next, i < dwSize → parseStep fm pBuf i = .ok (e, next) →
      i + 8 ≤ next ∧ next ≤ i + 263) := by
  have hs : dwSize + 263 < DWORD_RANGE := by omega
  have hfuel : ParsePolhemusRawData fm pBuf dwSize
      = parseLoop fm pBuf dwSize ((dwSize + 7) / 8) 0 [] :=
    parseLoop_fuel fm pBuf dwSize hs dwSize ((dwSize + 7) / 8) 0 [] (by omega) (by omega)
  refine ⟨parseLoop_ends fm pBuf dwSize hs dwSize 0 [] (by omega), hfuel, fun fuel => ?_,
    fun out hout => ?_, fun i e next hi h => parseStep_advance fm pBuf i next e (by omega) h⟩
  · have := parseCursors_length fm pBuf dwSize hs fuel 0
    omega
  · rw [hfuel] at hout
    have := parseLoop_length fm pBuf dwSize _ 0 [] out hout
    simpa using this

theorem ParsePolhemusRawData_terminates_witness :
    ParsePolhemusRawData benchFloat benchFrame 72 ≠ .error .non_termination ∧
    (∀ out, ParsePolhemusRawData benchFloat benchFrame 72 = .ok out →
      out.length ≤ (72 + 7) / 8) :=
  ⟨(ParsePolhemusRawData_terminates benchFloat benchFrame 72 (by decide)).1,
   (ParsePolhemusRawData_terminates benchFloat benchFrame 72 (by decide)).2.2.2.1⟩

/-! ## The slice diff operation -/

theorem DiffSliceOperation.afterAll_fields {Image Slice Geometry : Type}
    (calls : List DiffSliceOperation.Call) :
    ∀ (op : DiffSliceOperation Image Slice Geometry),
      (op.afterAll calls).m_Slice = op.m_Slice ∧
      (op.afterAll calls).m_WorldGeometry = op.m_WorldGeometry ∧
      (op.afterAll calls).m_ImageIsValid
        = (op.m_ImageIsValid && !calls.contains DiffSliceOperation.Call.OnImageDeleted) := by
  induction calls with
  | nil => intro op; simp [DiffSliceOperation.afterAll]
  | cons c calls ih =>
    intro op
    have h := ih (op.after c)
    simp only [DiffSliceOperation.afterAll, List.foldl_cons] at h ⊢
    rw [h.1, h.2.1, h.2.2]
    cases c <;>
      simp [DiffSliceOperation.after, DiffSliceOperation.OnImageDeleted, List.contains_cons]

/-- C11: a `DiffSliceOperation` constructed over a non-null image with a slice
and geometries is constructed without a fault, and after any sequence of calls
`IsValid()` returns true exactly when `OnImageDeleted` is not among them: true in
every state before the image's delete notification, false in every state after
it, whatever is called then. -/
theorem DiffSliceOperation_valid_until_deleted {Image Slice Geometry : Type}
    (imageVolume : Image) (slice : Slice) (sliceGeometry currentWorldGeometry : Geometry)
    (timestep tag : Nat) (calls : List DiffSliceOperation.Call) :
    ∃ op : DiffSliceOperation Image Slice Geometry,
      DiffSliceOperation.create (some imageVolume) (some slice) (some sliceGeometry) timestep
        (some currentWorldGeometry) tag = .ok op ∧
      (op.afterAll calls).IsValid = !calls.contains DiffSliceOperation.Call.OnImageDeleted := by
  refine ⟨_, rfl, ?_⟩
  unfold DiffSliceOperation.IsValid
  obtain ⟨h1, h2, h3⟩ := DiffSliceOperation.afterAll_fields calls
    ({ m_WorldGeometry := some currentWorldGeometry
       m_SliceGeometry := some sliceGeometry
       m_TimeStep := timestep % 2 ^ 32
       m_Slice := some slice
       m_Image := some imageVolume
       m_DeleteObserverTag := if (some imageVolume).isSome then some tag else none
       m_ImageIsValid := (some imageVolume).isSome } :
      DiffSliceOperation Image Slice Geometry)
  rw [h1, h2, h3]
  simp

/-! ## The base renderer -/

/-- C12: `SetWorldGeometry` increases the update time stamp: the value of
`GetCurrentWorldGeometry2DUpdateTime()` after the call is strictly greater than
before it (no stamp of the renderer being ahead of the counter the stamps are
taken from, which stays so). -/
theorem SetWorldGeometry_increases_stamp (geometry : Geometry3D) (r : BaseRenderer)
    (h : r.StampsTaken) :
    r.GetCurrentWorldGeometry2DUpdateTime
      < (r.SetWorldGeometry geometry).GetCurrentWorldGeometry2DUpdateTime ∧
    (r.SetWorldGeometry geometry).StampsTaken := by
  obtain ⟨h1, h2, h3⟩ := h
  simp only [BaseRenderer.GetCurrentWorldGeometry2DUpdateTime, BaseRenderer.SetWorldGeometry,
    BaseRenderer.nextStamp, BaseRenderer.StampsTaken]
  omega

theorem SetWorldGeometry_increases_stamp_witness :
    (3 : Nat) < (BaseRenderer.SetWorldGeometry (.timeSliced [[10, 11], [20, 21]])
      ⟨none, none, none, none, 1, 0, 3, 5, 0, false, 7⟩).GetCurrentWorldGeometry2DUpdateTime ∧
    (BaseRenderer.SetWorldGeometry (.timeSliced [[10, 11], [20, 21]])
      ⟨none, none, none, none, 1, 0, 3, 5, 0, false, 7⟩).m_CurrentWorldGeometry2D
      = some (.given 11) :=
  ⟨(SetWorldGeometry_increases_stamp (.timeSliced [[10, 11], [20, 21]])
      ⟨none, none, none, none, 1, 0, 3, 5, 0, false, 7⟩
      (by simp [BaseRenderer.StampsTaken])).1, rfl⟩

/-- C13, the code at the failing input: for a renderer whose display geometry
was set at time 5 and whose world geometry at time 3,
`GetDisplayGeometryUpdateTime()` returns 3, the value of
`m_CurrentWorldGeometry2DUpdateTime`, not `m_DisplayGeometryUpdateTime`. -/
theorem GetDisplayGeometryUpdateTime_returns_world_stamp :
    BaseRenderer.GetDisplayGeometryUpdateTime
      ⟨none, none, none, some 0, 0, 0, 3, 5, 0, false, 5⟩ = 3 ∧
    (⟨none, none, none, some 0, 0, 0, 3, 5, 0, false, 5⟩ :
      BaseRenderer).m_DisplayGeometryUpdateTime = 5 :=
  ⟨rfl, rfl⟩

/-! ## Connecting -/

theorem readFrame_benchTracker (st : PolhemusInterface BenchTracker)
    (hd : st.m_pdiDev = benchTracker) (hc : st.m_continousTracking = false) :
    readFrame benchFloat benchDev st
      = .ok (benchPositions, st.issue .ReadSinglePnoBuf benchTracker) := by
  have h72 : 72 % DWORD_RANGE = 72 := by decide
  simp [readFrame, GetSingleFrame, hc, hd, benchDev, benchTracker, h72, benchFrame_parse]

theorem benchPositions_id : benchPositions.map (fun entry => entry.id) = [1, 2] := by
  simp [benchPositions, decodeRecord, benchRecord, le32]

/-- C15, the code at the failing input: three old tool ports and cached
hemispheres, a frame with the two sensors 1 and 2.  `Connect` returns true with
`m_numberOfTools = 2`, but `m_ToolPorts` is still the old list of three ports
and the cached hemispheres are still there. -/
theorem Connect_keeps_stale_ports :
    benchPositions.map (fun entry => entry.id) = [1, 2] ∧
    ∃ st, Connect benchFloat benchDev benchSetup
        ⟨benchTracker, [], false, 3, [1, 2, 3], [⟨1, 0, 0⟩, ⟨0, 1, 0⟩, ⟨0, 0, 1⟩]⟩
        = .ok (true, st) ∧
      GetToolPorts st = [1, 2, 3] ∧ st.m_numberOfTools = 2 ∧
      st.m_Hemispheres = [⟨1, 0, 0⟩, ⟨0, 1, 0⟩, ⟨0, 0, 1⟩] := by
  refine ⟨benchPositions_id, ?_⟩
  have hlen : benchPositions.length = 2 := rfl
  have hr : ∀ s, benchDev.CnxReady s = true := benchDev_ready
  simp only [Connect, InitializeDevice, GetNumberOfTools, benchSetup, hr,
    Bool.not_true, Bool.false_eq_true, if_false, if_true]
  rw [readFrame_benchTracker _ rfl rfl]
  simp only [hlen]
  rw [readFrame_benchTracker _ rfl rfl]
  simp only [hlen, PolhemusInterface.issue, List.length_cons, List.length_nil]
  exact ⟨_, rfl, rfl, rfl, rfl⟩

/-- C7 as stated fails: `Connect` with one old port and a frame of two sensors
leaves `m_numberOfTools = 2` with the single port 1 in `m_ToolPorts` and no
cached hemisphere; switching hemisphere tracking on then reads `m_ToolPorts[1]`
past the end of the list instead of filling the cache with two vectors. -/
theorem SetHemisphereTrackingEnabled_reads_missing_port :
    ∃ st, Connect benchFloat benchDev benchSetup ⟨benchTracker, [], false, 1, [1], []⟩
        = .ok (true, st) ∧
      st.m_numberOfTools = 2 ∧ st.m_ToolPorts = [1] ∧ st.m_Hemispheres = [] ∧
      SetHemisphereTrackingEnabled benchFloat benchDev true st
        = .error .undefined_behaviour := by
  have hlen : benchPositions.length = 2 := rfl
  have hr : ∀ s, benchDev.CnxReady s = true := benchDev_ready
  simp only [Connect, InitializeDevice, GetNumberOfTools, benchSetup, hr,
    Bool.not_true, Bool.false_eq_true, if_false, if_true]
  rw [readFrame_benchTracker _ rfl rfl]
  simp only [hlen]
  rw [readFrame_benchTracker _ rfl rfl]
  simp only [hlen, PolhemusInterface.issue, List.length_cons, List.length_nil]
  exact ⟨_, rfl, rfl, rfl, rfl, rfl⟩

/-! ## Toggling a hemisphere -/

theorem ToggledBy.counted {σ : Type} {hemi : σ → Int → Vector3D} {track : σ → Int → Bool}
    {c1 c2 : Int → Nat} {a b : PolhemusInterface σ} (h : ToggledBy hemi track c1 a b)
    (hc : ∀ p, c1 p = c2 p) : ToggledBy hemi track c2 a b := by
  have : c1 = c2 := funext hc
  rw [← this]; exact h

end mitk
